import Mathlib

/-!
# A verification development for the run-hy8 culvert toolkit

This file gives a shallow embedding, in Lean 4, of the core of the
`run_hy8` Python package: the domain model (`models/*.py`), the `.hy8`
card-file writer (`writer.py`), the card-file reader (`reader.py`), and
the iterative flow-search engine (`hydraulics.py`).  The embedding
follows the Python source line by line:

* Python text is modelled as `List Char` (`Str` below); Python
  whitespace splitting, stripping and prefix tests are reproduced by
  executable functions on `Str`.
* Python `float` values are modelled as rational numbers; the only
  places where the finite precision of the file format matters are the
  `%.6f` renderings in the writer, which are modelled exactly by a
  six-decimal round-half-even rounding (`round6`), the rounding mode
  used by both Python's `round` builtin and its fixed-point formatting.
  Unit-conversion factors are modelled as exact rationals.
* Fallible Python code (exceptions) is modelled with `Except`; the
  recursive-descent parser additionally takes a fuel argument, and a
  dedicated `noFuel` error stands for non-termination.
* The mutable object graph relevant to the solver engine's
  "deep-copy-before-mutate" discipline is modelled by an explicit heap
  of crossing objects addressed by natural numbers.

Theorems at the end of the file settle the behavioural claims about the
codec, the validators and the search engine.
-/

set_option maxHeartbeats 4000000
set_option maxRecDepth 100000

/-- Python text, modelled as a list of characters. -/
abbrev Str := List Char

/-- Coerce a Lean string literal to the `Str` model. -/
def S (s : String) : Str := s.data

/-- The characters Python's `str.split()` / `str.strip()` treat as
whitespace (ASCII subset). -/
def pyIsSpace (c : Char) : Bool :=
  c == ' ' || c == '\t' || c == '\n' || c == '\r' || c == '\x0b' || c == '\x0c'

/-- `str.lstrip()`. -/
def stripL (s : Str) : Str := s.dropWhile pyIsSpace

/-- `str.rstrip()`. -/
def stripR (s : Str) : Str := (stripL s.reverse).reverse

/-- `str.strip()`. -/
def strip (s : Str) : Str := stripR (stripL s)

/-- Worker for `splitWs`: the current token accumulated in reverse. -/
def splitWsGo (cur : Str) : Str → List Str
  | [] => if cur.isEmpty then [] else [cur.reverse]
  | c :: t =>
    if pyIsSpace c then
      if cur.isEmpty then splitWsGo [] t else cur.reverse :: splitWsGo [] t
    else splitWsGo (c :: cur) t

/-- `str.split()` with no arguments: split on runs of whitespace,
discarding empty fields. -/
def splitWs (s : Str) : List Str := splitWsGo [] s

/-- `str.split(None, 1)` applied to an already-stripped line: the first
whitespace-delimited token, and the remainder with its leading
whitespace removed. -/
def split1 (s : Str) : Str × Str :=
  (s.takeWhile (fun d => !pyIsSpace d),
   (s.dropWhile (fun d => !pyIsSpace d)).dropWhile pyIsSpace)

-- Componentwise decidable equality of `Except` outcomes (core does not
-- derive it), used to evaluate codec and search results on concrete
-- inputs.
deriving instance DecidableEq for Except

/-- `str.upper()` (ASCII as used by the card keys). -/
def upperStr (s : Str) : Str := s.map Char.toUpper

/-- The run of spaces of length `n`. -/
def spaces (n : ℕ) : Str := List.replicate n ' '

/-- Worker for `natDigits`, with fuel (any fuel past the digit count
gives the digits; `natDigits` supplies `n + 1`). -/
def natDigitsGo : ℕ → ℕ → Str
  | 0, _ => []
  | fuel + 1, n =>
    if n < 10 then [Char.ofNat (48 + n)]
    else natDigitsGo fuel (n / 10) ++ [Char.ofNat (48 + n % 10)]

/-- Decimal digits of a natural number, most significant first. -/
def natDigits (n : ℕ) : Str := natDigitsGo (n + 1) n

/-- Python `str(int)`. -/
def intToStr (z : ℤ) : Str :=
  if z < 0 then '-' :: natDigits z.natAbs else natDigits z.natAbs

/-- Numeric value of a decimal digit character. -/
def digitVal (c : Char) : ℕ := c.toNat - 48

/-- Read a digit string, most significant first. -/
def digitsToNat (s : Str) : ℕ := s.foldl (fun a c => 10 * a + digitVal c) 0

/-- Parse a non-empty all-digit string. -/
def parseNat? (s : Str) : Option ℕ :=
  if s.isEmpty then none
  else if s.all Char.isDigit then some (digitsToNat s) else none

/-- Python `int(token)` on the token grammar the codec produces
(optional sign, decimal digits). -/
def pyInt? (s : Str) : Option ℤ :=
  match s with
  | '-' :: t => (parseNat? t).map (fun n => -(n : ℤ))
  | '+' :: t => (parseNat? t).map (fun n => (n : ℤ))
  | t => (parseNat? t).map (fun n => (n : ℤ))

/-- Unsigned part of Python `float(token)` on the fixed-point token
grammar the codec produces (digits, optional point, digits; exponent
and special forms never occur in `.hy8` numeric payloads). -/
def pyFloatCore (s : Str) : Option ℚ :=
  let ip := s.takeWhile Char.isDigit
  let rest := s.dropWhile Char.isDigit
  match rest with
  | [] => if ip.isEmpty then none else some ((digitsToNat ip : ℚ))
  | '.' :: fr =>
    if fr.all Char.isDigit && !(ip.isEmpty && fr.isEmpty) then
      some ((digitsToNat ip : ℚ) + (digitsToNat fr : ℚ) / (10 : ℚ) ^ fr.length)
    else none
  | _ => none

/-- Python `float(token)` with an optional sign. -/
def pyFloat? (s : Str) : Option ℚ :=
  match s with
  | '-' :: t => (pyFloatCore t).map Neg.neg
  | '+' :: t => pyFloatCore t
  | t => pyFloatCore t

/-- Round to the nearest integer, ties to even: the rounding used by
Python's `round` builtin and its fixed-point float formatting. -/
def rhe (q : ℚ) : ℤ :=
  let f := ⌊q⌋
  let r := q - f
  if r < 1/2 then f
  else if 1/2 < r then f + 1
  else if f % 2 = 0 then f else f + 1

/-- The integer of six-decimal fixed-point rounding. -/
def round6 (q : ℚ) : ℤ := rhe (q * 1000000)

/-- The rational recovered from the six-decimal rendering of `q`: this
is the precision loss of one trip through the file format. -/
def roundQ6 (q : ℚ) : ℚ := (round6 q : ℚ) / 1000000

/-- Left-pad a digit string with zeros to six places. -/
def zeroPad6 (n : ℕ) : Str :=
  let d := natDigits n
  List.replicate (6 - d.length) '0' ++ d

/-- Python `f"{x:.6f}"`: sign of the value, integer digits, point, six
fraction digits. -/
def fmtFloat6 (q : ℚ) : Str :=
  let n := round6 q
  let a := n.natAbs
  let sign : Str := if q < 0 then ['-'] else []
  sign ++ natDigits (a / 1000000) ++ '.' :: zeroPad6 (a % 1000000)

/-- Python `max(a, b)` on floats: the second argument only when it is
strictly larger (first wins ties). -/
def pyMax (a b : ℚ) : ℚ := if a < b then b else a

/-- Python `min(a, b)` on floats: the second argument only when it is
strictly smaller (first wins ties). -/
def pyMin (a b : ℚ) : ℚ := if b < a then b else a

/-- Python `abs` on floats. -/
def pyAbs (q : ℚ) : ℚ := if q < 0 then -q else q

/-- Python `max(a, b)` on ints. -/
def pyMaxI (a b : ℤ) : ℤ := if a < b then b else a

/-! ## Domain model (`run_hy8/models/*.py`, `classes_references.py`, `type_helpers.py`) -/

/-- `classes_references.UnitSystem`. -/
inductive UnitSystem | ENGLISH | SI
deriving DecidableEq, Repr

/-- The numeric file-format flag of a unit system. -/
def UnitSystem.projectFlag : UnitSystem → ℤ
  | .ENGLISH => 0
  | .SI => 1

/-- `type_helpers.FlowMethod`. -/
inductive FlowMethod | MIN_DESIGN_MAX | MIN_MAX_INCREMENT | USER_DEFINED
deriving DecidableEq, Repr

/-- `type_helpers.TailwaterType`. -/
inductive TailwaterType
  | RECTANGULAR | TRAPEZOIDAL | TRIANGULAR | IRREGULAR | RATING_CURVE | CONSTANT
deriving DecidableEq, Repr

/-- Integer code of a tailwater type. -/
def TailwaterType.toInt : TailwaterType → ℤ
  | .RECTANGULAR => 1 | .TRAPEZOIDAL => 2 | .TRIANGULAR => 3
  | .IRREGULAR => 4 | .RATING_CURVE => 5 | .CONSTANT => 6

/-- `TailwaterType(value)`: recover a member from its code. -/
def TailwaterType.ofInt? (n : ℤ) : Option TailwaterType :=
  if n = 1 then some .RECTANGULAR else if n = 2 then some .TRAPEZOIDAL
  else if n = 3 then some .TRIANGULAR else if n = 4 then some .IRREGULAR
  else if n = 5 then some .RATING_CURVE else if n = 6 then some .CONSTANT
  else none

/-- `type_helpers.RoadwaySurface`. -/
inductive RoadwaySurface | PAVED | GRAVEL | USER_DEFINED
deriving DecidableEq, Repr

/-- Integer code of a roadway surface. -/
def RoadwaySurface.toInt : RoadwaySurface → ℤ
  | .PAVED => 1 | .GRAVEL => 2 | .USER_DEFINED => 3

/-- `RoadwaySurface(value)`. -/
def RoadwaySurface.ofInt? (n : ℤ) : Option RoadwaySurface :=
  if n = 1 then some .PAVED else if n = 2 then some .GRAVEL
  else if n = 3 then some .USER_DEFINED else none

/-- `type_helpers.InletType` (codes 0-5). -/
inductive InletType
  | NOT_SET | STRAIGHT | SIDE_TAPERED | SLOPE_TAPERED
  | SINGLE_BROKEN_BACK | DOUBLE_BROKEN_BACK
deriving DecidableEq, Repr

/-- Integer code of an inlet type. -/
def InletType.toInt : InletType → ℤ
  | .NOT_SET => 0 | .STRAIGHT => 1 | .SIDE_TAPERED => 2
  | .SLOPE_TAPERED => 3 | .SINGLE_BROKEN_BACK => 4 | .DOUBLE_BROKEN_BACK => 5

/-- `InletType(value)`. -/
def InletType.ofInt? (n : ℤ) : Option InletType :=
  if n = 0 then some .NOT_SET else if n = 1 then some .STRAIGHT
  else if n = 2 then some .SIDE_TAPERED else if n = 3 then some .SLOPE_TAPERED
  else if n = 4 then some .SINGLE_BROKEN_BACK
  else if n = 5 then some .DOUBLE_BROKEN_BACK else none

/-- `type_helpers.InletEdgeType` (codes 0-6). -/
inductive InletEdgeType
  | THIN_EDGE_PROJECTING | GROOVED_END_PROJECTING | GROOVED_END_WITH_HEADWALL
  | BEVELED_EDGE | SQUARE_EDGE_WITH_HEADWALL | MITERED_TO_SLOPE | HEADWALL
deriving DecidableEq, Repr

/-- Integer code of an inlet edge type. -/
def InletEdgeType.toInt : InletEdgeType → ℤ
  | .THIN_EDGE_PROJECTING => 0 | .GROOVED_END_PROJECTING => 1
  | .GROOVED_END_WITH_HEADWALL => 2 | .BEVELED_EDGE => 3
  | .SQUARE_EDGE_WITH_HEADWALL => 4 | .MITERED_TO_SLOPE => 5 | .HEADWALL => 6

/-- `InletEdgeType(value)`. -/
def InletEdgeType.ofInt? (n : ℤ) : Option InletEdgeType :=
  if n = 0 then some .THIN_EDGE_PROJECTING else if n = 1 then some .GROOVED_END_PROJECTING
  else if n = 2 then some .GROOVED_END_WITH_HEADWALL else if n = 3 then some .BEVELED_EDGE
  else if n = 4 then some .SQUARE_EDGE_WITH_HEADWALL else if n = 5 then some .MITERED_TO_SLOPE
  else if n = 6 then some .HEADWALL else none

/-- `type_helpers.InletEdgeType71` (legacy codes 0-4). -/
inductive InletEdgeType71 | CODE_0 | CODE_1 | CODE_2 | CODE_3 | CODE_4
deriving DecidableEq, Repr

/-- Integer code of a legacy inlet edge type. -/
def InletEdgeType71.toInt : InletEdgeType71 → ℤ
  | .CODE_0 => 0 | .CODE_1 => 1 | .CODE_2 => 2 | .CODE_3 => 3 | .CODE_4 => 4

/-- `InletEdgeType71(value)`. -/
def InletEdgeType71.ofInt? (n : ℤ) : Option InletEdgeType71 :=
  if n = 0 then some .CODE_0 else if n = 1 then some .CODE_1
  else if n = 2 then some .CODE_2 else if n = 3 then some .CODE_3
  else if n = 4 then some .CODE_4 else none

/-- `type_helpers.ImprovedInletEdgeType` (codes 0-6). -/
inductive ImprovedInletEdgeType
  | NONE | TYPE_1 | TYPE_2 | TYPE_3 | TYPE_4 | TYPE_5 | TYPE_6
deriving DecidableEq, Repr

/-- Integer code of an improved inlet edge type. -/
def ImprovedInletEdgeType.toInt : ImprovedInletEdgeType → ℤ
  | .NONE => 0 | .TYPE_1 => 1 | .TYPE_2 => 2 | .TYPE_3 => 3
  | .TYPE_4 => 4 | .TYPE_5 => 5 | .TYPE_6 => 6

/-- `ImprovedInletEdgeType(value)`. -/
def ImprovedInletEdgeType.ofInt? (n : ℤ) : Option ImprovedInletEdgeType :=
  if n = 0 then some .NONE else if n = 1 then some .TYPE_1
  else if n = 2 then some .TYPE_2 else if n = 3 then some .TYPE_3
  else if n = 4 then some .TYPE_4 else if n = 5 then some .TYPE_5
  else if n = 6 then some .TYPE_6 else none

/-- `type_helpers.CulvertShape` (CIRCLE=1, BOX=2). -/
inductive CulvertShape | CIRCLE | BOX
deriving DecidableEq, Repr

/-- Integer code of a culvert shape. -/
def CulvertShape.toInt : CulvertShape → ℤ
  | .CIRCLE => 1 | .BOX => 2

/-- `CulvertShape(value)`. -/
def CulvertShape.ofInt? (n : ℤ) : Option CulvertShape :=
  if n = 1 then some .CIRCLE else if n = 2 then some .BOX else none

/-- `type_helpers.CulvertMaterial` (CONCRETE=1, CORRUGATED_STEEL=2, HDPE=5). -/
inductive CulvertMaterial | CONCRETE | CORRUGATED_STEEL | HDPE
deriving DecidableEq, Repr

/-- Integer code of a culvert material. -/
def CulvertMaterial.toInt : CulvertMaterial → ℤ
  | .CONCRETE => 1 | .CORRUGATED_STEEL => 2 | .HDPE => 5

/-- `CulvertMaterial(value)`. -/
def CulvertMaterial.ofInt? (n : ℤ) : Option CulvertMaterial :=
  if n = 1 then some .CONCRETE else if n = 2 then some .CORRUGATED_STEEL
  else if n = 5 then some .HDPE else none

/-- `FlowDefinition.DUMMY_FLOW_LABEL`. -/
def DUMMY_FLOW_LABEL : Str := S "dummy flow"

/-- `models/flow_definition.py: FlowDefinition` (floats as rationals). -/
structure FlowDefinition where
  method : FlowMethod := .USER_DEFINED
  minimum : ℚ := 0
  design : ℚ := 0
  maximum : ℚ := 0
  user_values : List ℚ := []
  user_value_labels : List Str := []
deriving DecidableEq, Repr

/-- `models/tailwater_definition.py: TailwaterDefinition`. -/
structure TailwaterDefinition where
  tw_type : TailwaterType := .CONSTANT
  bottom_width : ℚ := 0
  sideslope : ℚ := 1
  channel_slope : ℚ := 0
  manning_n : ℚ := 0
  constant_elevation : ℚ := 0
  invert_elevation : ℚ := 0
  rating_curve_entries : ℤ := 6
  rating_curve : List (ℚ × ℚ × ℚ) := []
deriving DecidableEq, Repr

/-- `models/roadway_profile.py: RoadwayProfile`. -/
structure RoadwayProfile where
  width : ℚ := 0
  shape : ℤ := 1
  surface : RoadwaySurface := .PAVED
  stations : List ℚ := []
  elevations : List ℚ := []
deriving DecidableEq, Repr

/-- `models/culvert_barrel.py: CulvertBarrel`. -/
structure CulvertBarrel where
  name : Str := []
  span : ℚ := 0
  rise : ℚ := 0
  shape : CulvertShape := .CIRCLE
  material : CulvertMaterial := .CONCRETE
  number_of_barrels : ℤ := 1
  inlet_invert_station : ℚ := 0
  inlet_invert_elevation : ℚ := 0
  outlet_invert_station : ℚ := 0
  outlet_invert_elevation : ℚ := 0
  roadway_station : ℚ := 0
  inlet_type : InletType := .STRAIGHT
  inlet_edge_type : InletEdgeType := .THIN_EDGE_PROJECTING
  inlet_edge_type71 : InletEdgeType71 := .CODE_0
  improved_inlet_edge_type : ImprovedInletEdgeType := .NONE
  barrel_spacing : Option ℚ := none
  notes : Str := []
  manning_n_top : Option ℚ := none
  manning_n_bottom : Option ℚ := none
deriving DecidableEq, Repr

/-- `models/culvert_crossing.py: CulvertCrossing`. -/
structure CulvertCrossing where
  name : Str
  notes : Str := []
  flow : FlowDefinition := {}
  tailwater : TailwaterDefinition := {}
  roadway : RoadwayProfile := {}
  culverts : List CulvertBarrel := []
  uuid : Option Str := none
deriving DecidableEq, Repr

/-- `models/project.py: Hy8Project`. -/
structure Hy8Project where
  title : Str := []
  designer : Str := []
  notes : Str := []
  units : UnitSystem := .SI
  exit_loss_option : ℤ := 0
  crossings : List CulvertCrossing := []
deriving DecidableEq, Repr

/-! ## Validation (`validate` methods of the model dataclasses)

Python validation produces a list of human-readable message strings;
here each `errors.append(...)` site is modelled by one constructor of
`VErr`, carrying exactly the values the Python f-string interpolates
into the message (the decorating `prefix` strings thread no further
information and are dropped). -/

/-- One validation message; constructors correspond one-to-one to the
`errors.append` sites of the `validate` methods. -/
inductive VErr
  | flowMdmCountExactlyThree
  | flowMdmNotIncreasing
  | flowMinNegative
  | flowNoUserValues
  | flowUserNotIncreasing
  | flowLabelsCountMismatch
  | flowMethodUnsupported (m : FlowMethod)
  | tailwaterUnsupported (t : TailwaterType)
  | tailwaterBelowInvert
  | roadwayWidthNotPositive
  | roadwayTooFewPoints
  | roadwayCountsMismatch
  | culvertSpanNotPositive
  | culvertRiseNotPositive
  | boxNeedsRise
  | barrelsCountNotPositive
  | crossingNeedsCulvert
  | tailwaterAboveCrest (tw crest : ℚ)
  | projectNeedsCrossing
deriving DecidableEq, Repr

/-- `FlowDefinition._min_design_max_values`: always the literal triple
(the `len != 3` guard in the source can never fire). -/
def FlowDefinition.minDesignMaxValues (f : FlowDefinition) : List ℚ :=
  [f.minimum, f.design, f.maximum]

/-- `FlowDefinition.validate`. -/
def FlowDefinition.validate (f : FlowDefinition) : List VErr :=
  match f.method with
  | .MIN_DESIGN_MAX =>
    (if f.user_values ≠ [] ∧ f.user_values.length ≠ 3 then
        [VErr.flowMdmCountExactlyThree] else [])
    ++ (if ¬ (f.minimum < f.design ∧ f.design < f.maximum) then
        [VErr.flowMdmNotIncreasing] else [])
    ++ (if f.minimum < 0 then [VErr.flowMinNegative] else [])
  | .USER_DEFINED =>
    (if f.user_values = [] then [VErr.flowNoUserValues]
     else if 1 < f.user_values.length ∧
         (f.user_values.zip f.user_values.tail).any (fun p => decide (p.2 ≤ p.1)) then
        [VErr.flowUserNotIncreasing] else [])
    ++ (if f.user_value_labels ≠ [] ∧
          f.user_value_labels.length ≠ f.user_values.length then
        [VErr.flowLabelsCountMismatch] else [])
  | m => [VErr.flowMethodUnsupported m]

/-- `TailwaterDefinition.validate`. -/
def TailwaterDefinition.validate (tw : TailwaterDefinition) : List VErr :=
  if tw.tw_type ≠ .CONSTANT then [VErr.tailwaterUnsupported tw.tw_type]
  else if tw.constant_elevation < tw.invert_elevation then [VErr.tailwaterBelowInvert]
  else []

/-- `RoadwayProfile.validate`. -/
def RoadwayProfile.validate (r : RoadwayProfile) : List VErr :=
  (if r.width ≤ 0 then [VErr.roadwayWidthNotPositive] else [])
  ++ (if r.stations.length < 2 ∨ r.elevations.length < 2 then
      [VErr.roadwayTooFewPoints] else [])
  ++ (if r.stations.length ≠ r.elevations.length then
      [VErr.roadwayCountsMismatch] else [])

/-- `RoadwayProfile.crest_elevation`: `min(elevations)` (the source
raises on an empty list; callers guard on non-emptiness, and the `0`
returned here for `[]` is never consulted). -/
def RoadwayProfile.crestElevation (r : RoadwayProfile) : ℚ :=
  match r.elevations with
  | [] => 0
  | h :: t => t.foldl pyMin h

/-- `RoadwayProfile.points`: `zip(stations, elevations)`. -/
def RoadwayProfile.points (r : RoadwayProfile) : List (ℚ × ℚ) :=
  r.stations.zip r.elevations

/-- `CulvertBarrel.validate`. -/
def CulvertBarrel.validate (b : CulvertBarrel) : List VErr :=
  (if b.span ≤ 0 then [VErr.culvertSpanNotPositive] else [])
  ++ (if b.rise ≤ 0 then [VErr.culvertRiseNotPositive] else [])
  ++ (if b.shape = .BOX ∧ b.rise ≤ 0 then [VErr.boxNeedsRise] else [])
  ++ (if b.number_of_barrels ≤ 0 then [VErr.barrelsCountNotPositive] else [])

/-- `CulvertBarrel.manning_values`. -/
def CulvertBarrel.manningValues (b : CulvertBarrel) : ℚ × ℚ :=
  if b.material = .CORRUGATED_STEEL then (24/1000, 24/1000) else (12/1000, 12/1000)

/-- `CulvertCrossing.validate`. -/
def CulvertCrossing.validate (c : CulvertCrossing) : List VErr :=
  c.flow.validate ++ c.tailwater.validate ++ c.roadway.validate
  ++ (if c.culverts = [] then [VErr.crossingNeedsCulvert] else [])
  ++ (c.culverts.map CulvertBarrel.validate).flatten
  ++ (if c.roadway.elevations ≠ [] then
        if c.roadway.crestElevation ≤ c.tailwater.constant_elevation then
          [VErr.tailwaterAboveCrest c.tailwater.constant_elevation c.roadway.crestElevation]
        else []
      else [])

/-- `Hy8Project.validate`. -/
def Hy8Project.validate (p : Hy8Project) : List VErr :=
  (if p.crossings = [] then [VErr.projectNeedsCrossing] else [])
  ++ (p.crossings.map CulvertCrossing.validate).flatten

/-! ## Unit conversions (`units.py`, exact rationals) -/

/-- `units.FT_TO_METRES`. -/
def FT_TO_METRES : ℚ := 3048/10000

/-- `units.METRES_TO_FEET`. -/
def METRES_TO_FEET : ℚ := 10000/3048

/-- `units.CFS_TO_CMS`. -/
def CFS_TO_CMS : ℚ := 28316846592/1000000000000

/-- `units.CMS_TO_CFS`. -/
def CMS_TO_CFS : ℚ := 1000000000000/28316846592

/-- `units.feet_to_metres`. -/
def feetToMetres (v : ℚ) : ℚ := v * FT_TO_METRES

/-- `units.metres_to_feet`. -/
def metresToFeet (v : ℚ) : ℚ := v * METRES_TO_FEET

/-- `units.cfs_to_cms`. -/
def cfsToCms (v : ℚ) : ℚ := v * CFS_TO_CMS

/-- `units.cms_to_cfs`. -/
def cmsToCfs (v : ℚ) : ℚ := v * CMS_TO_CFS

/-! ## The `.hy8` writer (`writer.py`) -/

/-- One value passed to `Hy8FileWriter._write_card`: a Python int, a
Python float, a string, or `None`. -/
inductive WVal
  | i (n : ℤ)
  | f (q : ℚ)
  | s (t : Str)
  | nil
deriving DecidableEq, Repr

/-- Whether a card value takes the numeric branch of `_write_card`. -/
def WVal.isNum : WVal → Bool
  | .i _ => true
  | .f _ => true
  | _ => false

/-- `_write_card.fmt_numeric`: ints via `str`, floats at six decimals. -/
def fmtNumeric : WVal → Str
  | .i n => intToStr n
  | .f q => fmtFloat6 q
  | _ => []

/-- `_write_card.CARD_COLUMN`. -/
def CARD_COLUMN : ℕ := 21

/-- `_write_card.BASE_GAP`. -/
def BASE_GAP : ℕ := 3

/-- `_write_card.BASE_LENGTH`. -/
def BASE_LENGTH : ℕ := 8

/-- `_write_card.FIELD_WIDTH`. -/
def FIELD_WIDTH : ℕ := 11

/-- Right-pad with spaces to width `n` (Python `f"{name:<{n}}"`). -/
def padTo (s : Str) (n : ℕ) : Str := s ++ spaces (n - s.length)

/-- The value loop of `_write_card`, accumulating the line so far, the
current column, the count of numeric values written, and the rendered
length of the previous numeric value. -/
def writeCardGo (acc : Str) (current : ℕ) (numericIndex : ℕ)
    (previousLength : Option ℕ) : List WVal → Str
  | [] => acc
  | v :: vs =>
    match v with
    | .nil => writeCardGo acc current numericIndex previousLength vs
    | .s t =>
      let target := if numericIndex = 0 then CARD_COLUMN
        else CARD_COLUMN + numericIndex * FIELD_WIDTH
      let pad := if current < target then spaces (target - current)
        else if target < current then [' '] else []
      writeCardGo (acc ++ pad ++ t) (current + pad.length + t.length)
        numericIndex previousLength vs
    | v =>
      let text := fmtNumeric v
      let pad := if numericIndex = 0 then
          (if current < CARD_COLUMN then spaces (CARD_COLUMN - current)
           else if CARD_COLUMN < current then [' '] else [])
        else
          spaces (max 1 (BASE_GAP - ((previousLength.getD BASE_LENGTH) - BASE_LENGTH)))
      writeCardGo (acc ++ pad ++ text) (current + pad.length + text.length)
        (numericIndex + 1) (some text.length) vs

/-- `Hy8FileWriter._write_card`, as the line it emits (without the
final newline).  With no values the builder holds just the (padded)
name, which is what the early return writes. -/
def writeCard (name : Str) (values : List WVal) : Str :=
  let line := if name ≠ [] then
      (if CARD_COLUMN ≤ name.length then name else padTo name CARD_COLUMN)
    else []
  if values = [] then line
  else writeCardGo line line.length 0 none values

/-- Writer-side failures (`ValueError` raises inside `Hy8FileWriter`). -/
inductive WErr
  | validationFailed (errs : List VErr)
  | unsupportedTailwater (t : TailwaterType)
  | unsupportedFlowMethod
deriving DecidableEq, Repr

/-- Surround with double quotes (the writer's `f'"{text}"'`). -/
def quoteStr (s : Str) : Str := '"' :: (s ++ ['"'])

/-- `Hy8FileWriter._length_value`. -/
def lengthValueW (units : UnitSystem) (v : ℚ) : ℚ :=
  if units = .SI then metresToFeet v else v

/-- `Hy8FileWriter._flow_value`. -/
def flowValueW (units : UnitSystem) (v : ℚ) : ℚ :=
  if units = .SI then cmsToCfs v else v

/-- `FlowDefinition.sequence` (raises for the increment method). -/
def FlowDefinition.sequenceE (f : FlowDefinition) : Except WErr (List ℚ) :=
  match f.method with
  | .MIN_DESIGN_MAX => .ok f.minDesignMaxValues
  | .USER_DEFINED => .ok f.user_values
  | .MIN_MAX_INCREMENT => .error .unsupportedFlowMethod

/-- `Hy8FileWriter._flow_range_values`: for min/design/max flows the
source re-assigns the triple from `sequence()`, which is the identity;
in every case the returned tuple is the stored triple. -/
def flowRangeValues (f : FlowDefinition) : ℚ × ℚ × ℚ :=
  (f.minimum, f.design, f.maximum)

/-- `Hy8FileWriter._ensure_minimum_user_defined_flows`: insert a 10%
companion point when a user-defined flow list has exactly one value.
The two-element stable sort of the source is written out explicitly. -/
def ensureMinimumUserDefinedFlows (flow : FlowDefinition) (flowValues : List ℚ)
    (labels : List Str) (hasLabels : Bool) : List ℚ × List Str :=
  if flow.method ≠ .USER_DEFINED ∨ flowValues.length ≠ 1 then (flowValues, labels)
  else
    let baseValue := flowValues.headD 0
    let generatedValue := baseValue * (1/10)
    let baseLabel : Option Str :=
      if hasLabels ∧ labels ≠ [] then some (labels.headD []) else none
    let dummyLabel : Option Str := if hasLabels then some DUMMY_FLOW_LABEL else none
    let entries : List (ℚ × Option Str) :=
      if generatedValue < baseValue then
        [(generatedValue, dummyLabel), (baseValue, baseLabel)]
      else
        [(baseValue, baseLabel), (generatedValue, dummyLabel)]
    let normalizedValues := entries.map Prod.fst
    if hasLabels then
      (normalizedValues, entries.map (fun e => e.2.getD []))
    else (normalizedValues, [])

/-- The per-value card pairs of `_write_flow`'s final loop. -/
def flowValueLines (units : UnitSystem) (includeLabels : Bool)
    (labels : List Str) : ℕ → List ℚ → List Str
  | _, [] => []
  | idx, v :: vs =>
    writeCard (S "DISCHARGEXYUSER_Y") [.f (flowValueW units v)]
      :: (if includeLabels then
            [writeCard (S "DISCHARGEXYUSER_NAME") [.s (quoteStr (labels.getD idx []))]]
          else [])
      ++ flowValueLines units includeLabels labels (idx + 1) vs

/-- `Hy8FileWriter._write_flow`. -/
def writeFlow (units : UnitSystem) (crossing : CulvertCrossing) :
    Except WErr (List Str) := do
  let flow := crossing.flow
  let dischargeMethod : ℤ := if flow.method = .MIN_DESIGN_MAX then 0 else 1
  let (minFlow, designFlow, maxFlow) := flowRangeValues flow
  let flowValues0 ← flow.sequenceE
  let hasUserLabels : Bool := decide (flow.user_value_labels ≠ [])
  let (flowValues, labels) :=
    ensureMinimumUserDefinedFlows flow flowValues0 flow.user_value_labels hasUserLabels
  let includeLabels := hasUserLabels
  return [writeCard (S "DISCHARGERANGE")
            [.f (flowValueW units minFlow), .f (flowValueW units designFlow),
             .f (flowValueW units maxFlow)],
          writeCard (S "DISCHARGEMETHOD") [.i dischargeMethod],
          writeCard (S "DISCHARGEXYUSER") [.i flowValues.length]]
    ++ flowValueLines units includeLabels labels 0 flowValues

/-- `Hy8FileWriter._tailwater_stages`. -/
def tailwaterStages (tw : TailwaterDefinition) : List ℚ :=
  List.replicate (pyMaxI 1 tw.rating_curve_entries).toNat tw.constant_elevation

/-- `Hy8FileWriter._write_tailwater` (constant tailwater only). -/
def writeTailwater (units : UnitSystem) (tw : TailwaterDefinition) :
    Except WErr (List Str) :=
  if tw.tw_type ≠ .CONSTANT then .error (.unsupportedTailwater tw.tw_type)
  else
    let stages := tailwaterStages tw
    .ok ([writeCard (S "TAILWATERTYPE") [.i tw.tw_type.toInt],
          writeCard (S "CHANNELGEOMETRY")
            [.f (lengthValueW units tw.bottom_width), .f tw.sideslope,
             .f tw.channel_slope, .f tw.manning_n,
             .f (lengthValueW units tw.invert_elevation)],
          writeCard (S "NUMRATINGCURVE") [.i stages.length],
          writeCard (S "TWRATINGCURVE")
            [.f (lengthValueW units (stages.headD 0)), .f 0, .f 0, .f 0]]
      ++ (stages.drop 1).map (fun stage =>
            writeCard [] [.f (lengthValueW units stage), .f 0, .f 0, .f 0]))

/-- The station/elevation cards of `_write_roadway`: the first pair is
a `ROADWAYSECDATA` card, later pairs are `ROADWAYPOINT` cards. -/
def roadwayPointLines (units : UnitSystem) : Str → List (ℚ × ℚ) → List Str
  | _, [] => []
  | card, p :: ps =>
    writeCard card [.f (lengthValueW units p.1), .f (lengthValueW units p.2)]
      :: roadwayPointLines units (S "ROADWAYPOINT") ps

/-- `Hy8FileWriter._write_roadway`. -/
def writeRoadway (units : UnitSystem) (crossing : CulvertCrossing) : List Str :=
  let roadway := crossing.roadway
  [writeCard (S "ROADWAYSHAPE") [.i roadway.shape],
   writeCard (S "ROADWIDTH") [.f (lengthValueW units roadway.width)],
   writeCard (S "SURFACE") [.i roadway.surface.toInt],
   writeCard (S "NUMSTATIONS") [.i roadway.stations.length]]
  ++ roadwayPointLines units (S "ROADWAYSECDATA") roadway.points

/-- `Hy8FileWriter._write_culvert`. -/
def writeCulvert (units : UnitSystem) (culvert : CulvertBarrel) : List Str :=
  let culvertShape := culvert.shape.toInt
  let culvertMaterial :=
    if culvert.shape = .BOX then CulvertMaterial.CONCRETE.toInt
    else culvert.material.toInt
  let nPair := match culvert.manning_n_top, culvert.manning_n_bottom with
    | some nTop, some nBottom => (nTop, nBottom)
    | _, _ => culvert.manningValues
  let spacing := match culvert.barrel_spacing with
    | some sp => sp
    | none => pyMax (culvert.span * (15/10)) 0
  [writeCard (S "STARTCULVERT") [.s (quoteStr culvert.name)],
   writeCard (S "CULVERTSHAPE") [.i culvertShape],
   writeCard (S "CULVERTMATERIAL") [.i culvertMaterial],
   writeCard (S "INLETTYPE") [.i culvert.inlet_type.toInt],
   writeCard (S "INLETEDGETYPE") [.i culvert.inlet_edge_type.toInt],
   writeCard (S "INLETEDGETYPE71") [.i culvert.inlet_edge_type71.toInt],
   writeCard (S "IMPINLETEDGETYPE") [.i culvert.improved_inlet_edge_type.toInt],
   writeCard (S "BARRELDATA")
     [.f (lengthValueW units culvert.span), .f (lengthValueW units culvert.rise),
      .f nPair.1, .f nPair.2],
   writeCard (S "EMBANKMENTTYPE") [.i 2],
   writeCard (S "NUMBEROFBARRELS") [.i culvert.number_of_barrels],
   writeCard (S "INVERTDATA")
     [.f (lengthValueW units culvert.inlet_invert_station),
      .f (lengthValueW units culvert.inlet_invert_elevation),
      .f (lengthValueW units culvert.outlet_invert_station),
      .f (lengthValueW units culvert.outlet_invert_elevation)],
   writeCard (S "STARTCULVNOTES") [.s (quoteStr culvert.notes)],
   writeCard (S "ENDCULVNOTES") [],
   writeCard (S "ROADCULVSTATION") [.f (lengthValueW units culvert.roadway_station)],
   writeCard (S "BARRELSPACING") [.f (lengthValueW units spacing)],
   writeCard (S "ENDCULVERT") [.s (quoteStr culvert.name)]]

/-- `Hy8FileWriter._write_crossing`. -/
def writeCrossing (units : UnitSystem) (crossing : CulvertCrossing) :
    Except WErr (List Str) := do
  let flowLines ← writeFlow units crossing
  let twLines ← writeTailwater units crossing.tailwater
  return [writeCard (S "STARTCROSSING") [.s (quoteStr crossing.name)],
          writeCard (S "STARTCROSSNOTES") [.s (quoteStr crossing.notes)]]
    ++ flowLines ++ twLines ++ writeRoadway units crossing
    ++ [writeCard (S "NUMCULVERTS") [.i crossing.culverts.length]]
    ++ (crossing.culverts.map (writeCulvert units)).flatten
    ++ (match crossing.uuid with
        | some u => if u ≠ [] then [writeCard (S "CROSSGUID") [.s u]] else []
        | none => [])
    ++ [writeCard (S "ENDCROSSING") [.s (quoteStr crossing.name)]]

/-- `Hy8FileWriter._write_project`, as the list of emitted lines.  The
default version `80.0` is an integral float and renders as `"80"`; the
`PROJDATE` timestamp (`datetime.now()`-derived in the source) is a
parameter. -/
def writeProjectLines (p : Hy8Project) (timestamp : ℚ) :
    Except WErr (List Str) := do
  let crossLines ← p.crossings.mapM (writeCrossing p.units)
  return ([S "HY8PROJECTFILE" ++ intToStr 80,
           writeCard (S "UNITS") [.i p.units.projectFlag],
           writeCard (S "EXITLOSSOPTION") [.i p.exit_loss_option],
           writeCard (S "PROJTITLE") [.s p.title],
           writeCard (S "PROJDESIGNER") [.s p.designer],
           writeCard (S "STARTPROJNOTES") [.s p.notes],
           writeCard (S "ENDPROJNOTES") [],
           writeCard (S "PROJDATE") [.f timestamp],
           writeCard (S "NUMCROSSINGS") [.i p.crossings.length]]
    ++ crossLines.flatten ++ [S "ENDPROJECTFILE"])

/-- Join emitted lines into the file text: every line but the trailer
is written with a trailing newline, which is exactly a
newline-intercalation. -/
def encodeText (lines : List Str) : Str := List.intercalate (S "\n") lines

/-- `Hy8FileWriter.write` without the filesystem side effects: validate
the project (aggregated errors), then produce the file text. -/
def encode (p : Hy8Project) (timestamp : ℚ) : Except WErr Str :=
  let errors := p.validate
  if errors ≠ [] then .error (.validationFailed errors)
  else (writeProjectLines p timestamp).map encodeText

/-! ## The `.hy8` reader (`reader.py`)

The parser is a recursive-descent pass over a card stream with a
push-back buffer, exactly as in the source.  The stream keeps the
remaining raw lines (the source's advancing index into a fixed list)
and the LIFO push-back buffer.  Parsing loops take a fuel argument;
`PErr.noFuel` stands for a non-terminating execution. -/

/-- `reader._Hy8Card`. -/
structure Card where
  key : Str
  value : Str
deriving DecidableEq, Repr

/-- `reader._Hy8CardStream` state: remaining raw lines and the
push-back buffer (top of the Python list first). -/
structure CStream where
  rem : List Str
  buf : List Card
deriving DecidableEq, Repr

/-- `_Hy8CardStream._split_card`. -/
def splitCard (line : Str) : Card :=
  if (S "HY8PROJECTFILE").isPrefixOf line then
    { key := S "HY8PROJECTFILE", value := strip (line.drop 14) }
  else
    let p := split1 line
    { key := p.1, value := p.2 }

/-- The raw-line loop of `next_card`: skip blank lines, split the
first non-blank one. -/
def nextCardGo : List Str → Option (Card × CStream)
  | [] => none
  | raw :: rest =>
    if strip raw = [] then nextCardGo rest
    else some (splitCard (strip raw), ⟨rest, []⟩)

/-- `_Hy8CardStream.next_card` (returns `none` for `StopIteration`). -/
def nextCard : CStream → Option (Card × CStream)
  | ⟨rem, c :: buf⟩ => some (c, ⟨rem, buf⟩)
  | ⟨rem, []⟩ => nextCardGo rem

/-- `_Hy8CardStream.push_back`. -/
def pushBack (st : CStream) (c : Card) : CStream := ⟨st.rem, c :: st.buf⟩

/-- The raw-line loop of `read_block` (the push-back buffer rides
along unchanged until the marker line). -/
def readBlockGo (endMarker : Str) (buf : List Card) : List Str → List Str × CStream
  | [] => ([], ⟨[], buf⟩)
  | raw :: rest =>
    let target := upperStr (strip endMarker)
    let stripped := strip raw
    if target.isPrefixOf (upperStr stripped) then
      let trailing := strip (stripped.drop endMarker.length)
      if trailing ≠ [] then ([], ⟨rest, (⟨endMarker, trailing⟩ : Card) :: buf⟩)
      else ([], ⟨rest, buf⟩)
    else
      let p := readBlockGo endMarker buf rest
      (raw :: p.1, p.2)

/-- `_Hy8CardStream.read_block`: consume raw lines up to the
case-insensitive `endMarker` prefix (exclusive); any trailing text on
the marker line is pushed back as a synthetic card. -/
def readBlock (endMarker : Str) (st : CStream) : List Str × CStream :=
  readBlockGo endMarker st.buf st.rem

/-- The raw-line loop of `skip_until`. -/
def skipUntilGo (target : Str) (buf : List Card) : List Str → CStream
  | [] => ⟨[], buf⟩
  | raw :: rest =>
    if upperStr (strip raw) = upperStr (strip target) then ⟨rest, buf⟩
    else skipUntilGo target buf rest

/-- `_Hy8CardStream.skip_until`. -/
def skipUntil (target : Str) (st : CStream) : CStream :=
  skipUntilGo target st.buf st.rem

/-- Reader-side failures (exceptions escaping `_Hy8Parser.parse`):
the empty-file and wrong-header `ValueError`s, the uncaught
`StopIteration` of an exhausted stream inside a block, the
unsupported-flow-flag and min/design/max-count `ValueError`s, and
`noFuel` for a non-terminating execution. -/
inductive PErr
  | emptyFile
  | badHeader (key : Str)
  | stopIteration
  | badFlowFlag (n : ℤ)
  | mdmNeedsThree
  | unsupportedFlowMethodCard (m : FlowMethod)
  | noFuel
deriving DecidableEq, Repr

/-- `_Hy8Parser._clean_string`. -/
def cleanString (raw : Str) : Str :=
  let text := strip raw
  let text :=
    match text with
    | '"' :: t =>
      match t.getLast? with
      | some '"' => t.dropLast
      | _ => text
    | _ => text
  strip text

/-- Token loop of `_Hy8Parser._floats`: parse what parses, skip the
rest, stop once `expected` values have been collected. -/
def floatsGo (expected : Option ℕ) : List Str → List ℚ
  | [] => []
  | t :: ts =>
    match pyFloat? t with
    | none => floatsGo expected ts
    | some q =>
      match expected with
      | some e => if e ≤ 1 then [q] else q :: floatsGo (some (e - 1)) ts
      | none => q :: floatsGo none ts

/-- `_Hy8Parser._floats`. -/
def floatsOf (value : Str) (expected : Option ℕ) : List ℚ :=
  floatsGo expected (splitWs value)

/-- `_Hy8Parser._as_int`. -/
def asInt (value : Str) (dflt : ℤ) : ℤ :=
  match splitWs value with
  | [] => dflt
  | t :: _ => (pyInt? t).getD dflt

/-- `_Hy8Parser._as_float`. -/
def asFloat (value : Str) (dflt : ℚ) : ℚ :=
  match splitWs value with
  | [] => dflt
  | t :: _ => (pyFloat? t).getD dflt

/-- `_Hy8Parser._length_from_source` (file units to working units). -/
def lengthFromSource (v : ℚ) : ℚ := feetToMetres v

/-- `_Hy8Parser._flow_from_source`. -/
def flowFromSource (v : ℚ) : ℚ := cfsToCms v

/-- `_Hy8Parser._tailwater_type`. -/
def tailwaterTypeOf (value : Str) : TailwaterType :=
  (TailwaterType.ofInt? (asInt value 0)).getD .CONSTANT

/-- `_Hy8Parser._roadway_surface`. -/
def roadwaySurfaceOf (value : Str) : RoadwaySurface :=
  (RoadwaySurface.ofInt? (asInt value 1)).getD .PAVED

/-- `_Hy8Parser._culvert_shape`. -/
def culvertShapeOf (value : Str) : CulvertShape :=
  (CulvertShape.ofInt? (asInt value 0)).getD .CIRCLE

/-- `_Hy8Parser._culvert_material`. -/
def culvertMaterialOf (value : Str) : CulvertMaterial :=
  (CulvertMaterial.ofInt? (asInt value 1)).getD .CONCRETE

/-- `_Hy8Parser._inlet_type`. -/
def inletTypeOf (value : Str) : InletType :=
  (InletType.ofInt? (asInt value 0)).getD .NOT_SET

/-- `_Hy8Parser._inlet_edge_type`. -/
def inletEdgeTypeOf (value : Str) : InletEdgeType :=
  (InletEdgeType.ofInt? (asInt value 0)).getD .THIN_EDGE_PROJECTING

/-- `_Hy8Parser._inlet_edge_type71`. -/
def inletEdgeType71Of (value : Str) : InletEdgeType71 :=
  (InletEdgeType71.ofInt? (asInt value 0)).getD .CODE_0

/-- `_Hy8Parser._improved_inlet_edge_type`. -/
def improvedInletEdgeTypeOf (value : Str) : ImprovedInletEdgeType :=
  (ImprovedInletEdgeType.ofInt? (asInt value 0)).getD .NONE

/-- Join note lines: strip each raw line, drop empties, join with
newlines (`_Hy8Parser._collect_notes`'s final comprehension). -/
def joinNotes (lns : List Str) : Str :=
  List.intercalate (S "\n") ((lns.map strip).filter (fun l => l ≠ []))

/-- `_Hy8Parser._collect_notes`. -/
def collectNotes (inlineValue : Str) (endMarker : Str) (st : CStream) :
    Str × CStream :=
  let inl := cleanString inlineValue
  let p := readBlock endMarker st
  (joinNotes ((if inl ≠ [] then [inl] else []) ++ p.1), p.2)

/-- Loop body of `_Hy8Parser._read_flow_values`; returns the values,
the labels, and the `saw_label` flag. -/
def readFlowValuesLoop (fuel : ℕ) (expected : ℕ) (values : List ℚ)
    (labels : List Str) (sawLabel expectName : Bool) (st : CStream) :
    Except PErr ((List ℚ × List Str × Bool) × CStream) :=
  match fuel with
  | 0 => .error .noFuel
  | fuel + 1 =>
    if values.length < expected ∨ (expectName ∧ values.length ≤ expected) then
      match nextCard st with
      | none => .error .stopIteration
      | some (card, st) =>
        if card.key = S "DISCHARGEXYUSER_Y" then
          let v := match splitWs card.value with
            | [] => 0
            | t :: _ => match pyFloat? t with
              | some q => flowFromSource q
              | none => 0
          readFlowValuesLoop fuel expected (values ++ [v]) (labels ++ [[]])
            sawLabel true st
        else if card.key = S "DISCHARGEXYUSER_NAME" then
          let label := cleanString card.value
          let labels := if labels ≠ [] then labels.dropLast ++ [label] else labels
          readFlowValuesLoop fuel expected values labels true false st
        else
          let st := pushBack st card
          if expected ≤ values.length then .ok ((values, labels, sawLabel), st)
          else readFlowValuesLoop fuel expected values labels sawLabel false st
    else .ok ((values, labels, sawLabel), st)

/-- `_Hy8Parser._read_flow_values`. -/
def readFlowValues (fuel : ℕ) (expected : ℤ) (st : CStream) :
    Except PErr ((List ℚ × List Str) × CStream) :=
  if expected ≤ 0 then .ok (([], []), st)
  else do
    let ((values, labels, sawLabel), st) ←
      readFlowValuesLoop fuel expected.toNat [] [] false false st
    return ((values, if sawLabel then labels else []), st)

/-- `_Hy8Parser._finalize_flow`. -/
def finalizeFlow (crossing : CulvertCrossing) (data : List ℚ × List Str) :
    Except PErr CulvertCrossing :=
  let userValues := data.1
  let labels := data.2
  let flow := crossing.flow
  match flow.method with
  | .MIN_DESIGN_MAX =>
    if userValues ≠ [] then
      if userValues.length ≠ 3 then .error .mdmNeedsThree
      else .ok { crossing with flow := { flow with
        minimum := userValues.headD 0,
        design := (userValues.drop 1).headD 0,
        maximum := (userValues.drop 2).headD 0,
        user_values := userValues.take 3,
        user_value_labels := [] } }
    else .ok { crossing with flow := { flow with
        user_values := [flow.minimum, flow.design, flow.maximum],
        user_value_labels := [] } }
  | .USER_DEFINED =>
    .ok { crossing with flow := { flow with
        user_values := userValues, user_value_labels := labels } }
  | m => .error (.unsupportedFlowMethodCard m)

/-- `_Hy8Parser._parse_culvert`. -/
def parseCulvert (fuel : ℕ) (culvert : CulvertBarrel) (st : CStream) :
    Except PErr (CulvertBarrel × CStream) :=
  match fuel with
  | 0 => .error .noFuel
  | fuel + 1 =>
    match nextCard st with
    | none => .error .stopIteration
    | some (card, st) =>
      if card.key = S "ENDCULVERT" then .ok (culvert, st)
      else if card.key = S "CULVERTSHAPE" then
        parseCulvert fuel { culvert with shape := culvertShapeOf card.value } st
      else if card.key = S "CULVERTMATERIAL" then
        parseCulvert fuel { culvert with material := culvertMaterialOf card.value } st
      else if card.key = S "INLETTYPE" then
        parseCulvert fuel { culvert with inlet_type := inletTypeOf card.value } st
      else if card.key = S "INLETEDGETYPE" then
        parseCulvert fuel { culvert with inlet_edge_type := inletEdgeTypeOf card.value } st
      else if card.key = S "INLETEDGETYPE71" then
        parseCulvert fuel { culvert with inlet_edge_type71 := inletEdgeType71Of card.value } st
      else if card.key = S "IMPINLETEDGETYPE" then
        parseCulvert fuel
          { culvert with improved_inlet_edge_type := improvedInletEdgeTypeOf card.value } st
      else if card.key = S "BARRELDATA" then
        match floatsOf card.value (some 4) with
        | [a, b, c, d] =>
          parseCulvert fuel { culvert with
            span := lengthFromSource a, rise := lengthFromSource b,
            manning_n_top := some c, manning_n_bottom := some d } st
        | _ => parseCulvert fuel culvert st
      else if card.key = S "NUMBEROFBARRELS" then
        parseCulvert fuel
          { culvert with number_of_barrels := asInt card.value culvert.number_of_barrels } st
      else if card.key = S "INVERTDATA" then
        match floatsOf card.value (some 4) with
        | [a, b, c, d] =>
          parseCulvert fuel { culvert with
            inlet_invert_station := lengthFromSource a,
            inlet_invert_elevation := lengthFromSource b,
            outlet_invert_station := lengthFromSource c,
            outlet_invert_elevation := lengthFromSource d } st
        | _ => parseCulvert fuel culvert st
      else if card.key = S "ROADCULVSTATION" then
        parseCulvert fuel { culvert with
          roadway_station := lengthFromSource (asFloat card.value culvert.roadway_station) } st
      else if card.key = S "BARRELSPACING" then
        parseCulvert fuel { culvert with
          barrel_spacing := some (lengthFromSource (asFloat card.value 0)) } st
      else if card.key = S "STARTCULVNOTES" then
        let p := collectNotes card.value (S "ENDCULVNOTES") st
        parseCulvert fuel { culvert with notes := p.1 } p.2
      else parseCulvert fuel culvert st

/-- `_Hy8Parser._parse_crossing`. -/
def parseCrossing (fuel : ℕ) (crossing : CulvertCrossing)
    (pending : List ℚ × List Str) (st : CStream) :
    Except PErr (CulvertCrossing × CStream) :=
  match fuel with
  | 0 => .error .noFuel
  | fuel + 1 =>
    match nextCard st with
    | none => .error .stopIteration
    | some (card, st) =>
      if card.key = S "ENDCROSSING" then do
        let crossing ← finalizeFlow crossing pending
        return (crossing, st)
      else if card.key = S "STARTCROSSNOTES" then
        parseCrossing fuel { crossing with notes := cleanString card.value } pending st
      else if card.key = S "DISCHARGERANGE" then
        let flow := crossing.flow
        let flow := match floatsOf card.value (some 3) with
          | [] => flow
          | [a] => { flow with minimum := flowFromSource a }
          | [a, b] => { flow with minimum := flowFromSource a, design := flowFromSource b }
          | a :: b :: c :: _ => { flow with minimum := flowFromSource a, design := flowFromSource b, maximum := flowFromSource c }
        parseCrossing fuel { crossing with flow := flow } pending st
      else if card.key = S "DISCHARGEMETHOD" then
        if asInt card.value 0 = 0 then
          parseCrossing fuel
            { crossing with flow := { crossing.flow with method := .MIN_DESIGN_MAX } }
            pending st
        else if asInt card.value 0 = 1 then
          parseCrossing fuel
            { crossing with flow := { crossing.flow with method := .USER_DEFINED } }
            pending st
        else .error (.badFlowFlag (asInt card.value 0))
      else if card.key = S "DISCHARGEXYUSER" then do
        let (data, st) ← readFlowValues fuel (asInt card.value 0) st
        parseCrossing fuel crossing data st
      else if card.key = S "DISCHARGEXYUSER_NAME" then
        parseCrossing fuel crossing pending st
      else if card.key = S "TAILWATERTYPE" then
        parseCrossing fuel
          { crossing with tailwater := { crossing.tailwater with
              tw_type := tailwaterTypeOf card.value } } pending st
      else if card.key = S "NUMRATINGCURVE" then
        parseCrossing fuel
          { crossing with tailwater := { crossing.tailwater with
              rating_curve_entries :=
                pyMaxI 1 (asInt card.value crossing.tailwater.rating_curve_entries) } }
          pending st
      else if card.key = S "CHANNELGEOMETRY" then
        let tw := crossing.tailwater
        let tw := match floatsOf card.value (some 5) with
          | [] => tw
          | [a] => { tw with bottom_width := lengthFromSource a }
          | [a, b] => { tw with bottom_width := lengthFromSource a, sideslope := b }
          | [a, b, c] => { tw with bottom_width := lengthFromSource a, sideslope := b, channel_slope := c }
          | [a, b, c, d] => { tw with bottom_width := lengthFromSource a, sideslope := b, channel_slope := c, manning_n := d }
          | a :: b :: c :: d :: e :: _ => { tw with bottom_width := lengthFromSource a, sideslope := b, channel_slope := c, manning_n := d, invert_elevation := lengthFromSource e }
        parseCrossing fuel { crossing with tailwater := tw } pending st
      else if card.key = S "TWRATINGCURVE" then
        let tw := crossing.tailwater
        let tw := match floatsOf card.value none with
          | [] => tw
          | stage :: _ => { tw with constant_elevation := lengthFromSource stage }
        parseCrossing fuel { crossing with tailwater := tw } pending st
      else if card.key = S "RATINGCURVE" then
        parseCrossing fuel crossing pending (skipUntil (S "END RATINGCURVE") st)
      else if card.key = S "ROADWAYSHAPE" then
        parseCrossing fuel
          { crossing with roadway := { crossing.roadway with
              shape := asInt card.value crossing.roadway.shape } } pending st
      else if card.key = S "ROADWIDTH" then
        parseCrossing fuel
          { crossing with roadway := { crossing.roadway with
              width := lengthFromSource (asFloat card.value crossing.roadway.width) } }
          pending st
      else if card.key = S "SURFACE" then
        parseCrossing fuel
          { crossing with roadway := { crossing.roadway with
              surface := roadwaySurfaceOf card.value } } pending st
      else if card.key = S "ROADWAYSECDATA" ∨ card.key = S "ROADWAYPOINT" then
        let roadway := crossing.roadway
        let roadway := match floatsOf card.value (some 2) with
          | [a, b] => { roadway with
              stations := roadway.stations ++ [lengthFromSource a],
              elevations := roadway.elevations ++ [lengthFromSource b] }
          | _ => roadway
        parseCrossing fuel { crossing with roadway := roadway } pending st
      else if card.key = S "STARTCULVERT" then do
        let (culvert, st) ← parseCulvert fuel { name := cleanString card.value } st
        parseCrossing fuel
          { crossing with culverts := crossing.culverts ++ [culvert] } pending st
      else if card.key = S "NUMCULVERTS" then
        parseCrossing fuel crossing pending st
      else if card.key = S "CROSSGUID" then
        parseCrossing fuel { crossing with uuid := some (cleanString card.value) } pending st
      else parseCrossing fuel crossing pending st

/-- `_Hy8Parser._apply_project_card`. -/
def applyProjectCard (p : Hy8Project) (card : Card) (st : CStream) :
    Hy8Project × CStream :=
  if card.key = S "UNITS" then (p, st)
  else if card.key = S "EXITLOSSOPTION" then
    ({ p with exit_loss_option := asInt card.value 0 }, st)
  else if card.key = S "PROJTITLE" then ({ p with title := cleanString card.value }, st)
  else if card.key = S "PROJDESIGNER" then
    ({ p with designer := cleanString card.value }, st)
  else if card.key = S "STARTPROJNOTES" then
    let q := collectNotes card.value (S "ENDPROJNOTES") st
    ({ p with notes := q.1 }, q.2)
  else (p, st)

/-- `_Hy8Parser._consume_header`. -/
def consumeHeader (st : CStream) : Except PErr CStream :=
  match nextCard st with
  | none => .error .emptyFile
  | some (card, st) =>
    if card.key ≠ S "HY8PROJECTFILE" then .error (.badHeader card.key) else .ok st

/-- The main loop of `_Hy8Parser.parse` (header already consumed). -/
def parseLoop (fuel : ℕ) (p : Hy8Project) (st : CStream) : Except PErr Hy8Project :=
  match fuel with
  | 0 => .error .noFuel
  | fuel + 1 =>
    match nextCard st with
    | none => .ok p
    | some (card, st) =>
      if card.key = S "ENDPROJECTFILE" then .ok p
      else if card.key = S "STARTCROSSING" then do
        let (crossing, st) ← parseCrossing fuel
          { name := if cleanString card.value ≠ [] then cleanString card.value
            else S "Crossing" } ([], []) st
        parseLoop fuel { p with crossings := p.crossings ++ [crossing] } st
      else
        let q := applyProjectCard p card st
        parseLoop fuel q.1 q.2

/-- `_Hy8Parser.parse`: consume the header, run the loop, and force the
units flag to SI (in-memory values are always working units). -/
def parseProject (fuel : ℕ) (st : CStream) : Except PErr Hy8Project := do
  let st ← consumeHeader st
  let p ← parseLoop fuel {} st
  return { p with units := .SI }

/-- Worker for `pySplitlines`, accumulating the current line in
reverse. -/
def pySplitlinesGo (cur : Str) : Str → List Str
  | [] => [cur.reverse]
  | c :: rest =>
    if c = '\n' then
      match rest with
      | [] => [cur.reverse]
      | _ => cur.reverse :: pySplitlinesGo [] rest
    else pySplitlinesGo (c :: cur) rest

/-- Python `str.splitlines` on newline-only texts: split at `'\n'`,
dropping the empty segment after a trailing newline. -/
def pySplitlines (s : Str) : List Str :=
  match s with
  | [] => []
  | _ => pySplitlinesGo [] s

/-- Default fuel: generous for any terminating parse of these lines. -/
def stdFuel (lines : List Str) : ℕ := 4 * lines.length + 16

/-- `reader.load_project_from_hy8` minus the filesystem: split the text
into lines and parse. -/
def decode (text : Str) : Except PErr Hy8Project :=
  let lines := pySplitlines text
  parseProject (stdFuel lines) ⟨lines, []⟩

/-! ## The flow-search engine (`hydraulics.py`)

The external HY-8 solver is an expensive black box; one evaluation
(`_write_and_run` followed by `_select_row_by_flow`) maps a trial flow
to a result row.  Here an evaluation is a state transformer
`σ → ℚ → σ × Hy8ResultRow`: instantiated with `σ = Unit` and a pure
`flow → headwater` function it is the synthetic black box of the
specification, and instantiated with the crossing heap it captures the
flow assignments `crossing_q_from_hw` performs before each run. -/

/-- `results.Hy8ResultRow`, restricted to the two fields the search
engine consults. -/
structure Hy8ResultRow where
  flow : ℚ
  headwater_elevation : ℚ
deriving DecidableEq, Repr

/-- `hydraulics._FlowSample`. -/
structure FlowSample where
  flow : ℚ
  row : Hy8ResultRow
deriving DecidableEq, Repr

/-- `_FlowSample.headwater`. -/
def FlowSample.headwater (s : FlowSample) : ℚ := s.row.headwater_elevation

/-- `hydraulics._FlowSearch` (defaults `max_runs = 12`,
`tolerance = 1e-4`). -/
structure FlowSearch where
  target_headwater : ℚ
  simple_flow : ℚ
  q_hint : Option ℚ := none
  max_runs : ℕ := 12
  tolerance : ℚ := 1/10000
  samples : List FlowSample := []
deriving DecidableEq, Repr

/-- The seed-deduplication loop of `initial_candidates`: drop values
whose `round(value, 6)` key was already seen. -/
def dedupRound6 (seen : List ℚ) : List ℚ → List ℚ
  | [] => []
  | v :: vs =>
    if roundQ6 v ∈ seen then dedupRound6 seen vs
    else v :: dedupRound6 (roundQ6 v :: seen) vs

/-- `_FlowSearch.initial_candidates`. -/
def FlowSearch.initialCandidates (s : FlowSearch) : List ℚ :=
  let base : List ℚ :=
    match s.q_hint with
    | some h =>
      if h ≠ 0 ∧ 0 < h then
        [0, pyMax 0 ((9/10) * h), pyMax 0 h, pyMax 0 ((11/10) * h), pyMax 0 s.simple_flow]
      else
        [0, pyMax 0 (if 0 < s.simple_flow then s.simple_flow / 2 else 0), pyMax 0 s.simple_flow]
    | none =>
      [0, pyMax 0 (if 0 < s.simple_flow then s.simple_flow / 2 else 0), pyMax 0 s.simple_flow]
  dedupRound6 [] base

/-- `_FlowSearch.record`. -/
def FlowSearch.record (s : FlowSearch) (flow : ℚ) (row : Hy8ResultRow) : FlowSearch :=
  { s with samples := s.samples ++ [⟨flow, row⟩] }

/-- `_FlowSearch.exact_match`: the first recorded sample within
tolerance of the target. -/
def FlowSearch.exactMatch (s : FlowSearch) : Option FlowSample :=
  s.samples.find? (fun smp => decide (pyAbs (smp.headwater - s.target_headwater) ≤ s.tolerance))

/-- Python `max(xs, key=flow)`: first occurrence of the maximal flow. -/
def maxByFlowGo (best : FlowSample) : List FlowSample → FlowSample
  | [] => best
  | x :: xs => maxByFlowGo (if best.flow < x.flow then x else best) xs

/-- Python `min(xs, key=flow)`: first occurrence of the minimal flow. -/
def minByFlowGo (best : FlowSample) : List FlowSample → FlowSample
  | [] => best
  | x :: xs => minByFlowGo (if x.flow < best.flow then x else best) xs

/-- The samples at or below the target (`delta <= 0`). -/
def FlowSearch.lows (s : FlowSearch) : List FlowSample :=
  s.samples.filter (fun smp => decide (smp.headwater - s.target_headwater ≤ 0))

/-- The samples at or above the target (`delta >= 0`). -/
def FlowSearch.highs (s : FlowSearch) : List FlowSample :=
  s.samples.filter (fun smp => decide (0 ≤ smp.headwater - s.target_headwater))

/-- `_FlowSearch.bracket`. -/
def FlowSearch.bracket (s : FlowSearch) : Option (FlowSample × FlowSample) :=
  match s.lows, s.highs with
  | l :: ls, h :: hs =>
    let low := maxByFlowGo l ls
    let high := minByFlowGo h hs
    if low.flow = high.flow ∧ s.tolerance < pyAbs (low.headwater - s.target_headwater) then none
    else some (low, high)
  | _, _ => none

/-- `_FlowSearch.next_guess`. -/
def FlowSearch.nextGuess (s : FlowSearch) : Option ℚ :=
  if s.max_runs ≤ s.samples.length then none
  else
    match s.lows, s.highs with
    | l :: ls, h :: hs => some (((maxByFlowGo l ls).flow + (minByFlowGo h hs).flow) / 2)
    | l :: ls, [] =>
      let base := (maxByFlowGo l ls).flow
      some (if 0 < base then base * 2
        else (if s.simple_flow ≠ 0 then s.simple_flow else 1))
    | [], h :: hs => some ((minByFlowGo h hs).flow / 2)
    | [], [] =>
      some (if s.simple_flow ≠ 0 then s.simple_flow
        else (match s.q_hint with
          | some q => if q ≠ 0 then q else 1
          | none => 1))

/-- `hydraulics.HydraulicsResult` (solver bookkeeping fields omitted). -/
structure HydraulicsResult where
  crossing_name : Str
  requested_flow : Option ℚ := none
  requested_headwater : Option ℚ := none
  computed_flow : ℚ
  computed_headwater : ℚ
  row : Hy8ResultRow
deriving DecidableEq, Repr

/-- Failures of the hydraulics helpers (the `ValueError` /
`NotImplementedError` raises). -/
inductive QErr
  | unableToBracket
  | negativeRatio
  | noCulverts
  | mixedShapes
  | nonPositiveDiameter
  | noFuel
deriving DecidableEq, Repr

/-- The seed loop of `crossing_q_from_hw`: evaluate the candidates in
order, recording each, stopping early on an exact match. -/
def seedPhase {σ : Type} (eval : σ → ℚ → σ × Hy8ResultRow) :
    List ℚ → FlowSearch → σ → List ℚ →
    FlowSearch × σ × List ℚ × Option FlowSample
  | [], search, st, evals => (search, st, evals, none)
  | c :: cs, search, st, evals =>
    let p := eval st c
    let search := search.record c p.2
    match search.exactMatch with
    | some smp => (search, p.1, evals ++ [c], some smp)
    | none => seedPhase eval cs search p.1 (evals ++ [c])

/-- The `while final_row is None` loop of `crossing_q_from_hw`.  The
returned flag is `true` when the result came from the terminal
linear-interpolation evaluation (which the source returns without a
tolerance check), `false` for the exact-match and bracket-endpoint
paths. -/
def searchLoop {σ : Type} (eval : σ → ℚ → σ × Hy8ResultRow) (fuel : ℕ)
    (search : FlowSearch) (st : σ) (evals : List ℚ) :
    σ × List ℚ × Except QErr (ℚ × Hy8ResultRow × Bool) :=
  match fuel with
  | 0 => (st, evals, .error .noFuel)
  | fuel + 1 =>
    match search.bracket with
    | some (low, high) =>
      if pyAbs (low.headwater - search.target_headwater) ≤ search.tolerance then
        (st, evals, .ok (low.flow, low.row, false))
      else if pyAbs (high.headwater - search.target_headwater) ≤ search.tolerance then
        (st, evals, .ok (high.flow, high.row, false))
      else
        let slope := high.headwater - low.headwater
        let guess := if slope = 0 then (low.flow + high.flow) / 2
          else low.flow +
            ((search.target_headwater - low.headwater) / slope) * (high.flow - low.flow)
        let p := eval st guess
        (p.1, evals ++ [guess], .ok (p.2.flow, p.2, true))
    | none =>
      match search.nextGuess with
      | none => (st, evals, .error .unableToBracket)
      | some g =>
        let p := eval st g
        let search := search.record g p.2
        match search.exactMatch with
        | some smp => (p.1, evals ++ [g], .ok (smp.flow, smp.row, false))
        | none => searchLoop eval fuel search p.1 (evals ++ [g])

/-- The search driver of `crossing_q_from_hw` after the scratch project
has been prepared: seed candidates, then bracket / bisect. -/
def qFromHwSearch {σ : Type} (eval : σ → ℚ → σ × Hy8ResultRow) (fuel : ℕ)
    (crossingName : Str) (simpleFlow hw : ℚ) (qHint : Option ℚ) (st : σ) :
    σ × List ℚ × Except QErr (HydraulicsResult × Bool) :=
  let search : FlowSearch :=
    { target_headwater := hw, simple_flow := simpleFlow, q_hint := qHint }
  let q := seedPhase eval search.initialCandidates search st []
  let wrap : ℚ × Hy8ResultRow × Bool → HydraulicsResult × Bool := fun r =>
    ({ crossing_name := crossingName, requested_headwater := some hw,
       computed_flow := r.1, computed_headwater := r.2.1.headwater_elevation,
       row := r.2.1 }, r.2.2)
  match q.2.2.2 with
  | some smp => (q.2.1, q.2.2.1, .ok (wrap (smp.flow, smp.row, false)))
  | none =>
    let r := searchLoop eval fuel q.1 q.2.1 q.2.2.1
    (r.1, r.2.1, r.2.2.map wrap)

/-- The binary64 value of `math.pi`. -/
def mathPi : ℚ := 884279719003555/281474976710656

/-- `hydraulics._total_barrels`. -/
def totalBarrels (c : CulvertCrossing) : ℤ :=
  let total := (c.culverts.map (fun b =>
    if 0 < b.number_of_barrels then b.number_of_barrels else 1)).sum
  if 0 < total then total else 1

/-- `hydraulics._characteristic_diameter`. -/
def characteristicDiameter (c : CulvertCrossing) : Except QErr ℚ :=
  match c.culverts with
  | [] => .error .noCulverts
  | reference :: others =>
    let diameter := match reference.shape with
      | .CIRCLE => reference.span
      | .BOX => reference.rise
    if diameter ≤ 0 then .error .nonPositiveDiameter
    else if others.any (fun b => b.shape ≠ reference.shape) then .error .mixedShapes
    else .ok diameter

/-- `hydraulics._simple_flow_estimate`. -/
def simpleFlowEstimate (c : CulvertCrossing) : Except QErr ℚ := do
  let diameter ← characteristicDiameter c
  return mathPi * (diameter * diameter) / 4 * (totalBarrels c : ℚ)

/-- A pure black-box evaluation: each solver row echoes the requested
flow and reports headwater `f flow`. -/
def pureEval (f : ℚ → ℚ) : Unit → ℚ → Unit × Hy8ResultRow :=
  fun u q => (u, ⟨q, f q⟩)

/-- `crossing_q_from_hw` with the external solver abstracted into the
black-box `f : flow → headwater` of the specification.  Returns the
evaluated flows alongside the outcome; the `Bool` tags the
terminal-interpolation path. -/
def crossingQFromHwFn (f : ℚ → ℚ) (c : CulvertCrossing) (hw : ℚ)
    (qHint : Option ℚ) : List ℚ × Except QErr (HydraulicsResult × Bool) :=
  match simpleFlowEstimate c with
  | .error e => ([], .error e)
  | .ok simpleFlow =>
    let r := qFromHwSearch (pureEval f) 16 c.name simpleFlow hw qHint ()
    (r.2.1, r.2.2)

/-! ## Heap model of the scratch-project discipline (`hydraulics.py`)

The Python object graph relevant to claim-level aliasing is modelled by
an explicit heap: a list of `CulvertCrossing` objects addressed by
position.  A caller's `Hy8Project` holds references into the heap;
`copy.deepcopy` allocates a fresh object at the end of the heap, and
the per-trial `scenario_crossing.flow = FlowDefinition(...)` assignment
updates the heap at the scenario reference only. -/

/-- The heap of crossing objects. -/
abbrev Heap := List CulvertCrossing

/-- A project value holding references to crossing objects (the
caller-facing `Hy8Project` of the heap model). -/
structure Hy8ProjectR where
  title : Str := []
  designer : Str := []
  notes : Str := []
  units : UnitSystem := .SI
  exit_loss_option : ℤ := 0
  crossings : List ℕ := []
deriving DecidableEq, Repr

/-- The trial flow definition assigned before each run:
`FlowDefinition(method=USER_DEFINED, user_values=[q])`. -/
def mkTrialFlow (q : ℚ) : FlowDefinition :=
  { method := .USER_DEFINED, user_values := [q] }

/-- `scenario_crossing.flow = fd`: update the heap object at `i`. -/
def setFlowAt (σ : Heap) (i : ℕ) (fd : FlowDefinition) : Heap :=
  match σ.get? i with
  | some c => σ.set i { c with flow := fd }
  | none => σ

/-- `hydraulics._clone_project_with_crossing`: deep-copy the crossing
into a fresh heap cell, and build a fresh snapshot project whose only
crossing reference is the copy. -/
def cloneProjectWithCrossing (σ : Heap) (r : ℕ) (proj : Option Hy8ProjectR)
    (units : Option UnitSystem) (exitLossOption : Option ℤ) :
    Heap × Hy8ProjectR × ℕ :=
  let original := (σ.get? r).getD { name := [] }
  let σ := σ ++ [original]
  let snapshot : Hy8ProjectR :=
    match proj with
    | some p =>
      { title := p.title, designer := p.designer, notes := p.notes,
        units := p.units, exit_loss_option := p.exit_loss_option,
        crossings := [σ.length - 1] }
    | none =>
      { title := original.name, designer := [], notes := [],
        units := units.getD .SI,
        exit_loss_option := exitLossOption.getD 0,
        crossings := [σ.length - 1] }
  (σ, snapshot, σ.length - 1)

/-- `hydraulics.crossing_hw_from_q` on the heap model: clone, assign
the single trial flow to the scenario crossing, evaluate once. -/
def crossingHwFromQHeap (f : ℚ → ℚ) (σ : Heap) (r : ℕ)
    (proj : Option Hy8ProjectR) (units : Option UnitSystem)
    (exitLossOption : Option ℤ) (q : ℚ) : Heap × HydraulicsResult :=
  let c := cloneProjectWithCrossing σ r proj units exitLossOption
  let scenarioName := ((c.1.get? c.2.2).getD { name := [] }).name
  let σ := setFlowAt c.1 c.2.2 (mkTrialFlow q)
  let row : Hy8ResultRow := ⟨q, f q⟩
  (σ, { crossing_name := scenarioName, requested_flow := some q,
        computed_flow := row.flow, computed_headwater := row.headwater_elevation,
        row := row })

/-- `hydraulics.crossing_q_from_hw` on the heap model: clone once, then
run the search, assigning each trial flow to the scenario crossing
before its evaluation. -/
def crossingQFromHwHeap (f : ℚ → ℚ) (σ : Heap) (r : ℕ)
    (proj : Option Hy8ProjectR) (units : Option UnitSystem)
    (exitLossOption : Option ℤ) (hw : ℚ) (qHint : Option ℚ) :
    Heap × List ℚ × Except QErr (HydraulicsResult × Bool) :=
  let c := cloneProjectWithCrossing σ r proj units exitLossOption
  let cref := c.2.2
  let scenario := (c.1.get? cref).getD { name := [] }
  match simpleFlowEstimate scenario with
  | .error e => (c.1, [], .error e)
  | .ok simpleFlow =>
    qFromHwSearch (fun τ q => (setFlowAt τ cref (mkTrialFlow q), ⟨q, f q⟩)) 16
      scenario.name simpleFlow hw qHint c.1

/-- `hydraulics.crossing_q_for_hwd` on the heap model: derive the
target headwater from the caller's crossing, then delegate. -/
def crossingQForHwdHeap (f : ℚ → ℚ) (σ : Heap) (r : ℕ)
    (proj : Option Hy8ProjectR) (units : Option UnitSystem)
    (exitLossOption : Option ℤ) (ratio : ℚ) (qHint : Option ℚ) :
    Heap × List ℚ × Except QErr (HydraulicsResult × Bool) :=
  if ratio < 0 then (σ, [], .error .negativeRatio)
  else
    let crossing := (σ.get? r).getD { name := [] }
    match characteristicDiameter crossing with
    | .error e => (σ, [], .error e)
    | .ok diameter =>
      let inletElevation :=
        (crossing.culverts.headD {}).inlet_invert_elevation
      let targetHeadwater := inletElevation + ratio * diameter
      crossingQFromHwHeap f σ r proj units exitLossOption targetHeadwater qHint

/-! ## Auxiliary definitions used by the theorem statements -/

/-- The column rule as the specification words it, for comparison with
`_write_card`: renders are joined by gaps of `max 1 (3 - (prev - 8))`
spaces, where `prev` is the rendered length of the previous value (the
first render is preceded by no gap). -/
def specGapJoin : Option ℕ → List Str → Str
  | _, [] => []
  | none, r :: rs => r ++ specGapJoin (some r.length) rs
  | some prev, r :: rs =>
    spaces (max 1 (BASE_GAP - (prev - BASE_LENGTH))) ++ r ++ specGapJoin (some r.length) rs

/-- A text field that survives the codec verbatim: only plain spaces
as whitespace, no double quote, no leading or trailing space. -/
def cleanB (s : Str) : Bool :=
  s.all (fun c => (!pyIsSpace c || c == ' ') && c != '"') &&
  (match s.head? with | some c => decide (c ≠ ' ') | none => true) &&
  (match s.getLast? with | some c => decide (c ≠ ' ') | none => true)

/-- One working-units length through the file format: to feet, rounded
at six decimals, back to metres. -/
def rt6Len (x : ℚ) : ℚ := feetToMetres (roundQ6 (metresToFeet x))

/-- One working-units flow through the file format: to cfs, rounded at
six decimals, back to cms. -/
def rt6Flow (x : ℚ) : ℚ := cfsToCms (roundQ6 (cmsToCfs x))

/-- Total number of stream elements (raw lines plus buffered cards):
every `next_card` call consumes at least one. -/
def streamSize (st : CStream) : ℕ := st.rem.length + st.buf.length

/-- No line or buffered card of the stream carries a key in `ks`. -/
def streamAvoids (ks : List Str) (st : CStream) : Prop :=
  (∀ l ∈ st.rem, strip l ≠ [] → (splitCard (strip l)).key ∉ ks) ∧
  (∀ c ∈ st.buf, c.key ∉ ks)

/-- A one-barrel crossing (circular, span 2) used to exercise the
search engine on concrete runs. -/
def searchCrossing2 : CulvertCrossing :=
  { name := S "X", culverts := [{ name := S "B", span := 2, rise := 2 }] }

/-- A one-barrel crossing (circular, span 1). -/
def searchCrossing1 : CulvertCrossing :=
  { name := S "X", culverts := [{ name := S "B", span := 1, rise := 1 }] }

/-- A monotone black-box solver: identity up to flow 10, then slope
100 — strictly increasing and convex. -/
def fSteep : ℚ → ℚ := fun q => if q ≤ 10 then q else 10 + 100 * (q - 10)

/-- A valid project in ENGLISH units (lengths already in feet). -/
def enProject : Hy8Project :=
  { title := S "Demo", designer := S "Eng", notes := S "note",
    units := .ENGLISH, exit_loss_option := 0,
    crossings := [
      { name := S "Crossing 1", notes := S "demo",
        flow := { method := .USER_DEFINED, user_values := [5, 10, 15] },
        tailwater := { constant_elevation := 201/2, invert_elevation := 99 },
        roadway := { width := 40, stations := [0, 50, 100],
                     elevations := [102, 203/2, 102] },
        culverts := [{ name := S "Culvert 1", span := 4, rise := 4,
                       barrel_spacing := some 6, manning_n_top := some (12/1000),
                       manning_n_bottom := some (12/1000) }],
        uuid := some (S "abc-123") }] }

/-- The units of the decoded project, `ENGLISH` if decoding failed
(used to compare against an `ENGLISH` source project). -/
def decodedUnits (r : Except PErr Hy8Project) : UnitSystem :=
  match r with
  | .ok p => p.units
  | .error _ => .ENGLISH

/-! ## Theorems -/

/-- The writer's adjacent-pair scan is exactly the failure of strict
ascent. -/
theorem zipAny_iff_not_chain (l : List ℚ) :
    ((l.zip l.tail).any (fun p => decide (p.2 ≤ p.1)) = true) ↔
      ¬ List.Chain' (· < ·) l := by
  induction l with
  | nil => simp
  | cons a t ih =>
    cases t with
    | nil => simp
    | cons b t2 =>
      simp only [List.tail_cons, List.zip_cons_cons, List.any_cons,
        List.chain'_cons, Bool.or_eq_true, decide_eq_true_eq] at *
      constructor
      · rintro (hba | h)
        · exact fun hc => absurd hc.1 (not_lt.mpr hba)
        · intro hc
          exact (ih.mp h) hc.2
      · intro hc
        rcases not_and_or.mp hc with hab | h
        · exact Or.inl (not_lt.mp hab)
        · exact Or.inr (ih.mpr h)

/-- C6.  `FlowDefinition.validate` rejects user-defined value lists of
length at least two that are not strictly increasing, rejects
min/design/max triples that are not strictly increasing, and emits no
flow-ordering error on strictly increasing input. -/
theorem c6_flow_validate (f : FlowDefinition) :
    (f.method = .USER_DEFINED → 2 ≤ f.user_values.length →
      ¬ List.Chain' (· < ·) f.user_values → f.validate ≠ [])
  ∧ (f.method = .MIN_DESIGN_MAX →
      ¬ (f.minimum < f.design ∧ f.design < f.maximum) → f.validate ≠ [])
  ∧ (f.method = .USER_DEFINED → List.Chain' (· < ·) f.user_values →
      VErr.flowUserNotIncreasing ∉ f.validate)
  ∧ (f.method = .MIN_DESIGN_MAX → f.minimum < f.design → f.design < f.maximum →
      VErr.flowMdmNotIncreasing ∉ f.validate) := by
  refine ⟨?_, ?_, ?_, ?_⟩
  · intro hm hlen hchain
    have hne : f.user_values ≠ [] := by
      intro h; rw [h] at hlen; simp at hlen
    have hone : 1 < f.user_values.length := by omega
    have hany := (zipAny_iff_not_chain f.user_values).mpr hchain
    simp [FlowDefinition.validate, hm, hne, hone, hany]
  · intro hm hord
    simp [FlowDefinition.validate, hm, hord]
  · intro hm hchain
    have hany : ((f.user_values.zip f.user_values.tail).any
        (fun p => decide (p.2 ≤ p.1))) = false := by
      rw [← Bool.not_eq_true, zipAny_iff_not_chain]
      exact not_not_intro hchain
    simp only [FlowDefinition.validate, hm]
    intro hmem
    rcases List.mem_append.mp hmem with h | h
    · split_ifs at h <;> simp_all
    · split_ifs at h <;> simp_all
  · intro hm h1 h2
    simp only [FlowDefinition.validate, hm]
    intro hmem
    rcases List.mem_append.mp hmem with h | h
    · rcases List.mem_append.mp h with h | h <;> (split_ifs at h <;> simp_all)
    · split_ifs at h <;> simp_all

/-- C6 witness: `[10, 5]` is rejected, `(5, 5, 10)` is rejected, and a
strictly increasing list draws no ordering error. -/
theorem c6_flow_validate_witness :
    (FlowDefinition.validate
      { method := .USER_DEFINED, user_values := [10, 5] } ≠ []) ∧
    (FlowDefinition.validate
      { method := .MIN_DESIGN_MAX, minimum := 5, design := 5, maximum := 10 } ≠ []) ∧
    VErr.flowUserNotIncreasing ∉
      FlowDefinition.validate { method := .USER_DEFINED, user_values := [5, 10] } := by
  refine ⟨?_, ?_, ?_⟩
  · exact (c6_flow_validate _).1 rfl (by norm_num) (by
      intro h
      rcases h with _ | ⟨h, _⟩
      norm_num at h)
  · exact (c6_flow_validate _).2.1 rfl (by norm_num)
  · exact (c6_flow_validate _).2.2.1 rfl (by
      refine List.chain'_cons.mpr ⟨by norm_num, ?_⟩
      simp)

/-- No flow message is the crest message. -/
theorem tac_notin_flow (f : FlowDefinition) (a b : ℚ) :
    VErr.tailwaterAboveCrest a b ∉ f.validate := by
  intro h
  unfold FlowDefinition.validate at h
  rcases hm : f.method <;> (rw [hm] at h; simp_all; try split_ifs at h) <;> simp_all

/-- No tailwater message is the crest message. -/
theorem tac_notin_tw (tw : TailwaterDefinition) (a b : ℚ) :
    VErr.tailwaterAboveCrest a b ∉ tw.validate := by
  intro h
  unfold TailwaterDefinition.validate at h
  split_ifs at h <;> simp_all

/-- No roadway message is the crest message. -/
theorem tac_notin_roadway (r : RoadwayProfile) (a b : ℚ) :
    VErr.tailwaterAboveCrest a b ∉ r.validate := by
  intro h
  unfold RoadwayProfile.validate at h
  split_ifs at h <;> simp_all

/-- No barrel message is the crest message. -/
theorem tac_notin_barrel (bl : CulvertBarrel) (a b : ℚ) :
    VErr.tailwaterAboveCrest a b ∉ bl.validate := by
  intro h
  unfold CulvertBarrel.validate at h
  split_ifs at h <;> simp_all

/-- The fold computing `min(elevations)` yields a lower bound that is
attained. -/
theorem pyMin_foldl_spec (h : ℚ) (t : List ℚ) :
    (t.foldl pyMin h ∈ h :: t) ∧ (∀ x ∈ h :: t, t.foldl pyMin h ≤ x) := by
  induction t generalizing h with
  | nil => simp
  | cons b t2 ih =>
    have hmem := (ih (pyMin h b)).1
    have hle := (ih (pyMin h b)).2
    have hcase : pyMin h b = h ∨ pyMin h b = b := by
      unfold pyMin; split_ifs <;> simp
    have hlh : pyMin h b ≤ h := by
      unfold pyMin; split_ifs with hc
      · exact le_of_lt hc
      · exact le_refl h
    have hlb : pyMin h b ≤ b := by
      unfold pyMin; split_ifs with hc
      · exact le_refl b
      · exact not_lt.mp hc
    constructor
    · simp only [List.foldl_cons]
      rcases List.mem_cons.mp hmem with he | ht
      · rcases hcase with hh | hb
        · rw [he, hh]; exact List.mem_cons_self _ _
        · rw [he, hb]; simp
      · simp [List.mem_cons, ht]
    · intro x hx
      simp only [List.foldl_cons]
      rcases List.mem_cons.mp hx with rfl | hx2
      · exact le_trans (hle _ (List.mem_cons_self _ _)) hlh
      · rcases List.mem_cons.mp hx2 with rfl | hx3
        · exact le_trans (hle _ (List.mem_cons_self _ _)) hlb
        · exact hle _ (List.mem_cons_of_mem _ hx3)

/-- C7.  With a non-empty roadway elevation list, `validate` reports
the crest message (naming the tailwater elevation and the crest) iff
the constant tailwater elevation reaches the crest; the crest is the
minimum of the elevation samples. -/
theorem c7_tailwater_crest (c : CulvertCrossing) (h : c.roadway.elevations ≠ []) :
    (c.roadway.crestElevation ≤ c.tailwater.constant_elevation →
      VErr.tailwaterAboveCrest c.tailwater.constant_elevation c.roadway.crestElevation
        ∈ c.validate)
  ∧ (c.tailwater.constant_elevation < c.roadway.crestElevation →
      ∀ a b, VErr.tailwaterAboveCrest a b ∉ c.validate)
  ∧ (c.roadway.crestElevation ∈ c.roadway.elevations ∧
      ∀ x ∈ c.roadway.elevations, c.roadway.crestElevation ≤ x) := by
  refine ⟨?_, ?_, ?_⟩
  · intro hge
    unfold CulvertCrossing.validate
    simp only [List.mem_append]
    refine Or.inr ?_
    simp [h, hge]
  · intro hlt a b hmem
    unfold CulvertCrossing.validate at hmem
    simp only [List.mem_append] at hmem
    rcases hmem with ((((hf | ht) | hr) | hc1) | hc2) | hcrest
    · exact tac_notin_flow _ _ _ hf
    · exact tac_notin_tw _ _ _ ht
    · exact tac_notin_roadway _ _ _ hr
    · split_ifs at hc1 <;> simp_all
    · rcases List.mem_flatten.mp hc2 with ⟨l, hl, hmem2⟩
      rcases List.mem_map.mp hl with ⟨bl, _, rfl⟩
      exact tac_notin_barrel _ _ _ hmem2
    · rw [if_pos h, if_neg (not_le.mpr hlt)] at hcrest
      simp at hcrest
  · rcases he : c.roadway.elevations with _ | ⟨eh, et⟩
    · exact absurd he h
    · have hc : c.roadway.crestElevation = et.foldl pyMin eh := by
        unfold RoadwayProfile.crestElevation
        rw [he]
      rw [hc]
      try rw [he]
      exact pyMin_foldl_spec eh et

/-- C7 witness: a crossing with tailwater at 102 against a crest of
101.5 draws the crest message; lowering the tailwater to 101 clears
it. -/
theorem c7_tailwater_crest_witness :
    (let c : CulvertCrossing := { name := [], tailwater := { constant_elevation := 102 }, roadway := { elevations := [102, 203/2, 102] } }
     c.roadway.elevations ≠ [] ∧ c.roadway.crestElevation ≤ 102 ∧
       VErr.tailwaterAboveCrest 102 c.roadway.crestElevation ∈ c.validate) := by
  refine ⟨by simp, ?_, ?_⟩
  · show RoadwayProfile.crestElevation _ ≤ _
    unfold RoadwayProfile.crestElevation
    norm_num [pyMin]
  · exact (c7_tailwater_crest _ (by simp)).1 (by
      show RoadwayProfile.crestElevation _ ≤ _
      unfold RoadwayProfile.crestElevation
      norm_num [pyMin])

/-- C9.  A project in which some crossing carries a non-constant
tailwater always fails `encode` with the aggregated validation error,
one of whose messages names the unsupported tailwater variant; no file
text is produced. -/
theorem c9_unsupported_tailwater (p : Hy8Project) (ts : ℚ) (c : CulvertCrossing)
    (hc : c ∈ p.crossings) (h : c.tailwater.tw_type ≠ .CONSTANT) :
    (∃ errs, encode p ts = .error (.validationFailed errs) ∧
      VErr.tailwaterUnsupported c.tailwater.tw_type ∈ errs) ∧
    ∀ t, encode p ts ≠ .ok t := by
  have htw : VErr.tailwaterUnsupported c.tailwater.tw_type ∈ c.tailwater.validate := by
    unfold TailwaterDefinition.validate
    simp [h]
  have hcv : VErr.tailwaterUnsupported c.tailwater.tw_type ∈ c.validate := by
    unfold CulvertCrossing.validate
    simp only [List.mem_append]
    exact Or.inl (Or.inl (Or.inl (Or.inl (Or.inr htw))))
  have hpv : VErr.tailwaterUnsupported c.tailwater.tw_type ∈ p.validate := by
    unfold Hy8Project.validate
    simp only [List.mem_append]
    refine Or.inr (List.mem_flatten.mpr ⟨c.validate, ?_, hcv⟩)
    exact List.mem_map.mpr ⟨c, hc, rfl⟩
  have hne : p.validate ≠ [] := by
    intro he; rw [he] at hpv; simp at hpv
  constructor
  · refine ⟨p.validate, ?_, hpv⟩
    unfold encode
    simp [hne]
  · intro t ht
    unfold encode at ht
    simp [hne] at ht

/-- C9 witness: the ENGLISH demo project with its tailwater switched to
a rating curve. -/
theorem c9_unsupported_tailwater_witness :
    (let q : Hy8Project := { enProject with crossings := [{ (enProject.crossings.headD { name := [] }) with tailwater := { tw_type := .RATING_CURVE } }] }
     ∃ errs, encode q 0 = .error (.validationFailed errs) ∧
       VErr.tailwaterUnsupported .RATING_CURVE ∈ errs) := by
  intro q
  exact (c9_unsupported_tailwater q 0 _ (List.mem_cons_self _ _) (by simp)).1

/-- C4.  With exactly one user-defined flow value `v`, the encoder
synthesizes a companion at `v * 0.1` and emits the sorted pair (the
sentinel label rides on the synthesized point when labels are in use);
lists of two or more values, and non-user-defined flows, pass through
unchanged. -/
theorem c4_single_flow_shim (flow : FlowDefinition) (vals : List ℚ)
    (labels : List Str) (hasLabels : Bool) :
    (∀ v, vals = [v] → flow.method = .USER_DEFINED →
      ((ensureMinimumUserDefinedFlows flow vals labels hasLabels).1.Perm
          [v * (1/10), v]
        ∧ (ensureMinimumUserDefinedFlows flow vals labels hasLabels).1.Sorted (· ≤ ·)
        ∧ (ensureMinimumUserDefinedFlows flow vals labels hasLabels).1.length = 2
        ∧ (hasLabels = true →
            (ensureMinimumUserDefinedFlows flow vals labels hasLabels).2 =
              (if v * (1/10) < v then
                [DUMMY_FLOW_LABEL, if labels ≠ [] then labels.headD [] else []]
               else
                [if labels ≠ [] then labels.headD [] else [], DUMMY_FLOW_LABEL]))))
  ∧ (2 ≤ vals.length →
      ensureMinimumUserDefinedFlows flow vals labels hasLabels = (vals, labels))
  ∧ (flow.method ≠ .USER_DEFINED →
      ensureMinimumUserDefinedFlows flow vals labels hasLabels = (vals, labels)) := by
  refine ⟨?_, ?_, ?_⟩
  · rintro v rfl hm
    have hguard : ¬ (flow.method ≠ FlowMethod.USER_DEFINED ∨
        ([v] : List ℚ).length ≠ 1) := by
      simp [hm]
    unfold ensureMinimumUserDefinedFlows
    rw [if_neg hguard]
    by_cases hlt : v * (1/10) < v
    · simp only [hlt, if_true, List.headD_cons]
      constructor
      · cases hasLabels <;> simp [List.Perm.swap]
      · refine ⟨?_, ?_, ?_⟩
        · cases hasLabels <;> simp [List.sorted_cons] <;> linarith
        · cases hasLabels <;> simp
        · intro hl
          subst hl
          by_cases hne : labels = [] <;> simp [hne]
    · simp only [hlt, if_false, List.headD_cons]
      constructor
      · cases hasLabels <;> simp <;> exact List.Perm.swap _ _ _
      · refine ⟨?_, ?_, ?_⟩
        · cases hasLabels <;> simp [List.sorted_cons] <;> linarith
        · cases hasLabels <;> simp
        · intro hl
          subst hl
          by_cases hne : labels = [] <;> simp [hne]
  · intro hlen
    unfold ensureMinimumUserDefinedFlows
    rw [if_pos]
    right
    omega
  · intro hm
    unfold ensureMinimumUserDefinedFlows
    rw [if_pos]
    left
    exact hm

/-- C4 witness: encoding the user value list `[12.0]` with label
`"peak"` yields the points `[1.2, 12.0]` with the sentinel on the
synthesized point, and `[5, 10]` passes through unchanged. -/
theorem c4_single_flow_shim_witness :
    ((ensureMinimumUserDefinedFlows { method := .USER_DEFINED } [12] [S "peak"] true).1.Perm
        [12 * (1/10), 12]
      ∧ (ensureMinimumUserDefinedFlows { method := .USER_DEFINED } [12] [S "peak"] true).2 =
          [DUMMY_FLOW_LABEL, S "peak"])
  ∧ ensureMinimumUserDefinedFlows { method := .USER_DEFINED } [5, 10] [] false =
      ([5, 10], []) := by
  have h := c4_single_flow_shim ({ method := .USER_DEFINED }) [12] [S "peak"] true
  have h1 := (h.1 12 rfl rfl)
  refine ⟨⟨h1.1, ?_⟩, ?_⟩
  · have := h1.2.2.2 rfl
    rw [this, if_pos (by norm_num)]
    simp
  · exact (c4_single_flow_shim ({ method := .USER_DEFINED }) [5, 10] [] false).2.1
      (by norm_num)

/-- Length of a space run. -/
theorem spaces_length (n : ℕ) : (spaces n).length = n := by
  simp [spaces]

/-- Padding a short name reaches exactly the pad width. -/
theorem padTo_length (s : Str) (n : ℕ) (h : s.length ≤ n) :
    (padTo s n).length = n := by
  simp [padTo, spaces_length]
  omega

/-- After the first numeric value, `_write_card` separates each pair of
numeric renders by exactly the shrinking gap of the specification. -/
theorem writeCardGo_nums (vs : List WVal) (hnum : ∀ v ∈ vs, v.isNum = true)
    (acc : Str) (cur k prev : ℕ) :
    writeCardGo acc cur (k + 1) (some prev) vs =
      acc ++ specGapJoin (some prev) (vs.map fmtNumeric) := by
  induction vs generalizing acc cur k prev with
  | nil => simp [writeCardGo, specGapJoin]
  | cons v vs ih =>
    have hv : v.isNum = true := hnum v (List.mem_cons_self _ _)
    have hrest : ∀ w ∈ vs, w.isNum = true := fun w hw => hnum w (List.mem_cons_of_mem _ hw)
    cases v with
    | nil => simp [WVal.isNum] at hv
    | s t => simp [WVal.isNum] at hv
    | i n =>
      simp only [writeCardGo, List.map_cons, specGapJoin, Option.getD_some]
      rw [ih hrest]
      simp [List.append_assoc]
    | f q =>
      simp only [writeCardGo, List.map_cons, specGapJoin, Option.getD_some]
      rw [ih hrest]
      simp [List.append_assoc]

/-- C5.  For every card whose key is at most the 21-character pad width
and whose values are all numeric, the emitted line is the key padded to
exactly 21 characters (so the first numeric value begins at column 22)
followed by the renders joined under the shrinking-gap rule: a
3-space baseline reduced by one space per character the previous render
exceeds 8 characters, never below one space. -/
theorem c5_card_columns (name : Str) (vs : List WVal)
    (hname : name.length ≤ CARD_COLUMN) (hnum : ∀ v ∈ vs, v.isNum = true)
    (hne : vs ≠ []) :
    writeCard name vs = padTo name CARD_COLUMN ++ specGapJoin none (vs.map fmtNumeric)
    ∧ (padTo name CARD_COLUMN).length = CARD_COLUMN := by
  refine ⟨?_, padTo_length _ _ hname⟩
  rcases vs with _ | ⟨v, vs'⟩
  · exact absurd rfl hne
  have hv : v.isNum = true := hnum v (List.mem_cons_self _ _)
  have hrest : ∀ w ∈ vs', w.isNum = true := fun w hw => hnum w (List.mem_cons_of_mem _ hw)
  have hline : (if name ≠ [] then
      (if CARD_COLUMN ≤ name.length then name else padTo name CARD_COLUMN)
    else []) = padTo name CARD_COLUMN ∨
      ((if name ≠ [] then
        (if CARD_COLUMN ≤ name.length then name else padTo name CARD_COLUMN)
      else []) = [] ∧ name = []) := by
    by_cases h0 : name = []
    · right; simp [h0]
    · left
      rw [if_pos h0]
      by_cases h21 : CARD_COLUMN ≤ name.length
      · have : name.length = CARD_COLUMN := le_antisymm hname h21
        rw [if_pos h21]
        simp [padTo, this, spaces]
      · rw [if_neg h21]
  have step : ∀ line : Str, line.length ≤ CARD_COLUMN →
      line ++ spaces (CARD_COLUMN - line.length) = padTo name CARD_COLUMN →
      writeCardGo line line.length 0 none (v :: vs') =
        padTo name CARD_COLUMN ++ specGapJoin none (fmtNumeric v :: vs'.map fmtNumeric) := by
    intro line hlen hpad
    have hpadBranch : (if line.length < CARD_COLUMN then spaces (CARD_COLUMN - line.length)
        else if CARD_COLUMN < line.length then [' '] else []) =
        spaces (CARD_COLUMN - line.length) := by
      rcases lt_or_eq_of_le hlen with hlt | heq
      · rw [if_pos hlt]
      · rw [if_neg (by omega), if_neg (by omega)]
        simp [heq, spaces]
    cases v with
    | nil => simp [WVal.isNum] at hv
    | s t => simp [WVal.isNum] at hv
    | i n =>
      simp only [writeCardGo, if_true]
      rw [hpadBranch, writeCardGo_nums vs' hrest]
      simp only [specGapJoin, List.append_assoc]
      rw [← List.append_assoc, hpad]
    | f q =>
      simp only [writeCardGo, if_true]
      rw [hpadBranch, writeCardGo_nums vs' hrest]
      simp only [specGapJoin, List.append_assoc]
      rw [← List.append_assoc, hpad]
  unfold writeCard
  rw [if_neg (by simp)]
  rcases hline with hl | ⟨hl, hn0⟩
  · rw [hl]
    exact step _ (le_of_eq (padTo_length _ _ hname)) (by
      rw [padTo_length _ _ hname]
      simp [spaces])
  · rw [hl]
    refine step [] (by simp [CARD_COLUMN]) ?_
    simp [padTo, hn0]

/-- C5 witness: the `BARRELDATA` card of four six-decimal floats obeys
the fixed first column and the shrinking-gap rule. -/
theorem c5_card_columns_witness :
    writeCard (S "BARRELDATA") [.f 4, .f 4, .f (12/1000), .f (12/1000)] =
      padTo (S "BARRELDATA") CARD_COLUMN ++
        specGapJoin none ([WVal.f 4, .f 4, .f (12/1000), .f (12/1000)].map fmtNumeric)
    ∧ (padTo (S "BARRELDATA") CARD_COLUMN).length = CARD_COLUMN :=
  c5_card_columns (S "BARRELDATA") [.f 4, .f 4, .f (12/1000), .f (12/1000)]
    (by decide) (by decide) (by decide)

/-- Updating the scenario crossing leaves every other heap cell
untouched. -/
theorem setFlowAt_get?_ne (σ : Heap) (j i : ℕ) (fd : FlowDefinition) (h : i ≠ j) :
    (setFlowAt σ j fd).get? i = σ.get? i := by
  unfold setFlowAt
  cases σ.get? j with
  | none => rfl
  | some c => rw [List.get?_eq_getElem?, List.get?_eq_getElem?, List.getElem?_set_ne (Ne.symm h)]

/-- The seed loop only writes through the scenario reference. -/
theorem seedPhase_heap (f : ℚ → ℚ) (cref : ℕ) (cands : List ℚ)
    (search : FlowSearch) (τ : Heap) (evals : List ℚ) (i : ℕ) (hi : i ≠ cref) :
    ((seedPhase (fun τ q => (setFlowAt τ cref (mkTrialFlow q), ⟨q, f q⟩))
        cands search τ evals).2.1).get? i = τ.get? i := by
  induction cands generalizing search τ evals with
  | nil => rfl
  | cons c cs ih =>
    simp only [seedPhase]
    cases (search.record c ⟨c, f c⟩).exactMatch with
    | some smp => exact setFlowAt_get?_ne _ _ _ _ hi
    | none => rw [ih]; exact setFlowAt_get?_ne _ _ _ _ hi

/-- The bracketing loop only writes through the scenario reference. -/
theorem searchLoop_heap (f : ℚ → ℚ) (cref : ℕ) (fuel : ℕ)
    (search : FlowSearch) (τ : Heap) (evals : List ℚ) (i : ℕ) (hi : i ≠ cref) :
    ((searchLoop (fun τ q => (setFlowAt τ cref (mkTrialFlow q), ⟨q, f q⟩))
        fuel search τ evals).1).get? i = τ.get? i := by
  induction fuel generalizing search τ evals with
  | zero => rfl
  | succ fuel ih =>
    rw [searchLoop]
    rcases hb : search.bracket with _ | ⟨low, high⟩
    · simp only [hb]
      rcases hg : search.nextGuess with _ | g
      · simp only [hg]
      · simp only [hg]
        rcases hx : (search.record g ⟨g, f g⟩).exactMatch with _ | smp
        · simp only [hx]
          rw [ih]
          exact setFlowAt_get?_ne _ _ _ _ hi
        · simp only [hx]
          exact setFlowAt_get?_ne _ _ _ _ hi
    · simp only [hb]
      by_cases h1 : pyAbs (low.headwater - search.target_headwater) ≤ search.tolerance
      · simp [h1]
      · by_cases h2 : pyAbs (high.headwater - search.target_headwater) ≤ search.tolerance
        · simp [h1, h2]
        · simp only [h1, h2, if_false]
          exact setFlowAt_get?_ne _ _ _ _ hi

/-- The assembled search driver only writes through the scenario
reference. -/
theorem qFromHwSearch_heap (f : ℚ → ℚ) (cref : ℕ) (fuel : ℕ) (nm : Str)
    (simpleFlow hw : ℚ) (qHint : Option ℚ) (τ : Heap) (i : ℕ) (hi : i ≠ cref) :
    ((qFromHwSearch (fun τ q => (setFlowAt τ cref (mkTrialFlow q), ⟨q, f q⟩))
        fuel nm simpleFlow hw qHint τ).1).get? i = τ.get? i := by
  unfold qFromHwSearch
  set search0 : FlowSearch := { target_headwater := hw, simple_flow := simpleFlow, q_hint := qHint } with hs0
  simp only []
  rcases hseed : (seedPhase (fun τ q => (setFlowAt τ cref (mkTrialFlow q), ⟨q, f q⟩))
      search0.initialCandidates search0 τ []).2.2.2 with _ | smp
  · simp only [hseed]
    rw [searchLoop_heap f cref _ _ _ _ i hi]
    exact seedPhase_heap f cref _ _ _ _ i hi
  · simp only [hseed]
    exact seedPhase_heap f cref _ _ _ _ i hi

/-- C10.  None of the three hydraulics entry points modifies any
pre-existing heap object: the caller's crossing (and every crossing of
the caller's project) is unchanged after the call; trial flows are
assigned only to the freshly deep-copied scenario crossing. -/
theorem c10_no_caller_mutation (f : ℚ → ℚ) (σ : Heap) (r : ℕ)
    (proj : Option Hy8ProjectR) (units : Option UnitSystem)
    (exitLossOption : Option ℤ) (q hw ratio : ℚ) (qHint : Option ℚ) :
    (∀ i, i < σ.length →
      ((crossingHwFromQHeap f σ r proj units exitLossOption q).1).get? i = σ.get? i)
  ∧ (∀ i, i < σ.length →
      ((crossingQFromHwHeap f σ r proj units exitLossOption hw qHint).1).get? i
        = σ.get? i)
  ∧ (∀ i, i < σ.length →
      ((crossingQForHwdHeap f σ r proj units exitLossOption ratio qHint).1).get? i
        = σ.get? i) := by
  have happend : ∀ i, i < σ.length →
      ∀ x : CulvertCrossing, (σ ++ [x]).get? i = σ.get? i := by
    intro i hi x
    rw [List.get?_eq_getElem?, List.get?_eq_getElem?]
    exact List.getElem?_append_left hi
  have hlen : ∀ x : CulvertCrossing, (σ ++ [x]).length - 1 = σ.length := by
    intro x; simp
  have hne : ∀ x : CulvertCrossing, ∀ i, i < σ.length →
      i ≠ (σ ++ [x]).length - 1 := by
    intro x i hi
    simp only [List.length_append, List.length_cons, List.length_nil]
    omega
  have hmain : ∀ hw2 : ℚ, ∀ i, i < σ.length →
      ((crossingQFromHwHeap f σ r proj units exitLossOption hw2 qHint).1).get? i
        = σ.get? i := by
    intro hw2 i hi
    unfold crossingQFromHwHeap cloneProjectWithCrossing
    simp only []
    cases hs : simpleFlowEstimate
        (((σ ++ [(σ.get? r).getD { name := [] }]).get?
          ((σ ++ [(σ.get? r).getD { name := [] }]).length - 1)).getD { name := [] }) with
    | error e =>
      simp only [hs]
      exact happend i hi _
    | ok simpleFlow =>
      simp only [hs]
      rw [qFromHwSearch_heap f _ _ _ _ _ _ _ i
        (hne ((σ.get? r).getD { name := [] }) i hi)]
      exact happend i hi _
  refine ⟨?_, hmain hw, ?_⟩
  · intro i hi
    unfold crossingHwFromQHeap cloneProjectWithCrossing
    simp only []
    rw [setFlowAt_get?_ne _ _ _ _ (hne ((σ.get? r).getD { name := [] }) i hi)]
    exact happend i hi _
  · intro i hi
    unfold crossingQForHwdHeap
    by_cases hr : ratio < 0
    · simp [hr]
    · simp only [hr, if_false]
      cases hd : characteristicDiameter ((σ.get? r).getD { name := [] }) with
      | error e => simp only [hd]
      | ok d =>
        simp only [hd]
        exact hmain _ i hi

/-- C10 witness: on a one-object heap, a full `q_from_hw` search leaves
the caller's crossing cell untouched. -/
theorem c10_no_caller_mutation_witness :
    0 < ([searchCrossing2] : Heap).length ∧
    ((crossingQFromHwHeap (fun q => q) [searchCrossing2] 0 none none none 5 none).1).get? 0
      = ([searchCrossing2] : Heap).get? 0 :=
  ⟨by decide,
   (c10_no_caller_mutation (fun q => q) [searchCrossing2] 0 none none none 3 5 1 none).2.1
     0 (by decide)⟩

/-- Recording a sample changes no search parameter. -/
theorem record_fields (s : FlowSearch) (q : ℚ) (row : Hy8ResultRow) :
    (s.record q row).target_headwater = s.target_headwater ∧
    (s.record q row).tolerance = s.tolerance ∧
    (s.record q row).max_runs = s.max_runs ∧
    (s.record q row).samples = s.samples ++ [⟨q, row⟩] := by
  simp [FlowSearch.record]

/-- When every recorded headwater sits more than the tolerance below
the target, no exact match exists. -/
theorem exactMatch_none_of_low (s : FlowSearch)
    (hinv : ∀ smp ∈ s.samples,
      smp.headwater < s.target_headwater - s.tolerance) :
    s.exactMatch = none := by
  unfold FlowSearch.exactMatch
  apply List.find?_eq_none.mpr
  intro smp hs
  have h := hinv smp hs
  simp only [decide_eq_true_eq]
  intro habs
  unfold pyAbs at habs
  split_ifs at habs <;> linarith

/-- When every recorded headwater sits strictly below the target, the
high-side sample list is empty. -/
theorem highs_nil_of_low (s : FlowSearch)
    (hinv : ∀ smp ∈ s.samples,
      smp.headwater < s.target_headwater - s.tolerance)
    (htol : 0 ≤ s.tolerance) :
    s.highs = [] := by
  unfold FlowSearch.highs
  apply List.filter_eq_nil_iff.mpr
  intro smp hs
  have h := hinv smp hs
  simp only [decide_eq_true_eq]
  intro hge
  linarith

/-- No high-side sample means no bracket. -/
theorem bracket_none_of_no_highs (s : FlowSearch) (h : s.highs = []) :
    s.bracket = none := by
  unfold FlowSearch.bracket
  rw [h]
  rcases s.lows with _ | ⟨l, ls⟩ <;> rfl

/-- Below the run budget, `next_guess` always proposes a flow. -/
theorem nextGuess_some_of_budget (s : FlowSearch)
    (h : s.samples.length < s.max_runs) : ∃ g, s.nextGuess = some g := by
  unfold FlowSearch.nextGuess
  rw [if_neg (by omega)]
  rcases s.lows with _ | ⟨l, ls⟩ <;> rcases s.highs with _ | ⟨hh, hs⟩ <;>
    exact ⟨_, rfl⟩

/-- A proposed `next_guess` implies the run budget is not exhausted. -/
theorem nextGuess_some_lt (s : FlowSearch) (g : ℚ) (h : s.nextGuess = some g) :
    s.samples.length < s.max_runs := by
  by_contra hge
  unfold FlowSearch.nextGuess at h
  rw [if_pos (by omega)] at h
  exact Option.noConfusion h

/-- Under an everywhere-too-low solver, the bracketing loop records one
sample per iteration until the 12-sample budget is exhausted and then
fails with the unable-to-bracket error. -/
theorem searchLoop_all_low (f : ℚ → ℚ) (hw : ℚ)
    (hlow : ∀ q, f q < hw - 1/10000) :
    ∀ (fuel : ℕ) (search : FlowSearch) (evals : List ℚ),
      search.target_headwater = hw → search.tolerance = 1/10000 →
      search.max_runs = 12 →
      (∀ smp ∈ search.samples, smp.headwater < hw - 1/10000) →
      search.samples.length ≤ 12 →
      13 - search.samples.length ≤ fuel →
      (searchLoop (pureEval f) fuel search () evals).2.1.length
          = evals.length + (12 - search.samples.length) ∧
      (searchLoop (pureEval f) fuel search () evals).2.2 = .error .unableToBracket := by
  intro fuel
  induction fuel with
  | zero =>
    intro search evals _ _ _ _ hle hfuel
    omega
  | succ fuel ih =>
    intro search evals htgt htol hmax hinv hle hfuel
    have hinv2 : ∀ smp ∈ search.samples,
        smp.headwater < search.target_headwater - search.tolerance := by
      rw [htgt, htol]; exact hinv
    have hbr : search.bracket = none :=
      bracket_none_of_no_highs _ (highs_nil_of_low _ hinv2 (by rw [htol]; norm_num))
    rw [searchLoop]
    rw [hbr]
    by_cases hfull : search.samples.length = 12
    · have hng : search.nextGuess = none := by
        unfold FlowSearch.nextGuess
        rw [if_pos (by omega)]
      rw [hng]
      simp [hfull]
    · obtain ⟨g, hg⟩ := nextGuess_some_of_budget search (by omega)
      rw [hg]
      simp only [pureEval]
      have hfields := record_fields search g ⟨g, f g⟩
      have hinv3 : ∀ smp ∈ (search.record g ⟨g, f g⟩).samples,
          smp.headwater < hw - 1/10000 := by
        rw [hfields.2.2.2]
        intro smp hsmp
        rcases List.mem_append.mp hsmp with h | h
        · exact hinv smp h
        · rcases List.mem_singleton.mp h with rfl
          exact hlow g
      have hex : (search.record g ⟨g, f g⟩).exactMatch = none := by
        apply exactMatch_none_of_low
        rw [hfields.1, hfields.2.1, htgt, htol]
        exact hinv3
      rw [hex]
      have hlen2 : (search.record g ⟨g, f g⟩).samples.length =
          search.samples.length + 1 := by
        rw [hfields.2.2.2]; simp
      have := ih (search.record g ⟨g, f g⟩) (evals ++ [g])
        (by rw [hfields.1, htgt]) (by rw [hfields.2.1, htol])
        (by rw [hfields.2.2.1, hmax]) hinv3 (by omega) (by omega)
      refine ⟨?_, this.2⟩
      rw [this.1]
      simp only [List.length_append, List.length_singleton]
      omega

/-- Under an everywhere-too-low solver, the seed phase records every
candidate and finds no exact match. -/
theorem seedPhase_all_low (f : ℚ → ℚ) (hw : ℚ)
    (hlow : ∀ q, f q < hw - 1/10000) :
    ∀ (cands : List ℚ) (search : FlowSearch) (evals : List ℚ),
      search.target_headwater = hw → search.tolerance = 1/10000 →
      (∀ smp ∈ search.samples, smp.headwater < hw - 1/10000) →
      seedPhase (pureEval f) cands search () evals =
        ({ search with samples :=
            search.samples ++ cands.map (fun c => ⟨c, ⟨c, f c⟩⟩) }, (),
         evals ++ cands, none) := by
  intro cands
  induction cands with
  | nil =>
    intro search evals _ _ _
    simp [seedPhase]
  | cons c cs ih =>
    intro search evals htgt htol hinv
    rw [seedPhase]
    simp only [pureEval]
    have hfields := record_fields search c ⟨c, f c⟩
    have hinv2 : ∀ smp ∈ (search.record c ⟨c, f c⟩).samples,
        smp.headwater < hw - 1/10000 := by
      rw [hfields.2.2.2]
      intro smp hsmp
      rcases List.mem_append.mp hsmp with h | h
      · exact hinv smp h
      · rcases List.mem_singleton.mp h with rfl
        exact hlow c
    have hex : (search.record c ⟨c, f c⟩).exactMatch = none := by
      apply exactMatch_none_of_low
      rw [hfields.1, hfields.2.1, htgt, htol]
      exact hinv2
    rw [hex]
    rw [ih (search.record c ⟨c, f c⟩) (evals ++ [c])
      (by rw [hfields.1, htgt]) (by rw [hfields.2.1, htol]) hinv2]
    simp [FlowSearch.record, List.append_assoc]

/-- The dedup pass never lengthens the seed list. -/
theorem dedupRound6_length_le (seen : List ℚ) (l : List ℚ) :
    (dedupRound6 seen l).length ≤ l.length := by
  induction l generalizing seen with
  | nil => simp [dedupRound6]
  | cons v vs ih =>
    rw [dedupRound6]
    split_ifs
    · exact le_trans (ih seen) (by simp)
    · simp only [List.length_cons]
      exact Nat.succ_le_succ (ih _)

/-- At most five seed flows are ever proposed. -/
theorem initialCandidates_length_le (s : FlowSearch) :
    s.initialCandidates.length ≤ 5 := by
  unfold FlowSearch.initialCandidates
  rcases s.q_hint with _ | h
  · exact le_trans (dedupRound6_length_le _ _) (by norm_num)
  · simp only []
    by_cases hc : h ≠ 0 ∧ 0 < h
    · rw [if_pos hc]
      exact le_trans (dedupRound6_length_le _ _) (by norm_num)
    · rw [if_neg hc]
      exact le_trans (dedupRound6_length_le _ _) (by norm_num)

/-- C2 (amended).  When every achievable headwater is more than the
tolerance below the target, `crossing_q_from_hw` performs its entire
12-evaluation budget (there is no early capacity-exceeded report) and
then fails with the unable-to-bracket error. -/
theorem c2_budget_exhaustion (f : ℚ → ℚ) (c : CulvertCrossing) (hw : ℚ)
    (qHint : Option ℚ) (s : ℚ) (hs : simpleFlowEstimate c = .ok s)
    (hlow : ∀ q, f q < hw - 1/10000) :
    (crossingQFromHwFn f c hw qHint).2 = .error .unableToBracket ∧
    (crossingQFromHwFn f c hw qHint).1.length = 12 := by
  unfold crossingQFromHwFn
  rw [hs]
  simp only []
  unfold qFromHwSearch
  set search0 : FlowSearch := { target_headwater := hw, simple_flow := s, q_hint := qHint } with hs0
  simp only []
  have hseed := seedPhase_all_low f hw hlow search0.initialCandidates search0 []
    (by rw [hs0]) (by rw [hs0]) (by rw [hs0]; intro smp hsmp; simp at hsmp)
  rw [hseed]
  simp only []
  have hcl : search0.initialCandidates.length ≤ 5 := initialCandidates_length_le _
  set search1 : FlowSearch := { search0 with samples :=
      search0.samples ++ search0.initialCandidates.map (fun c => ⟨c, ⟨c, f c⟩⟩) } with hs1
  have hslen : search1.samples.length = search0.initialCandidates.length := by
    rw [hs1, hs0]
    simp
  have hloop := searchLoop_all_low f hw hlow 16 search1 ([] ++ search0.initialCandidates)
    (by rw [hs1, hs0]) (by rw [hs1, hs0]) (by rw [hs1, hs0])
    (by
      intro smp hsmp
      rw [hs1] at hsmp
      simp only [List.mem_append, List.mem_map] at hsmp
      rcases hsmp with h | ⟨q, hq, rfl⟩
      · simp [hs0] at h
      · exact hlow q)
    (by omega) (by omega)
  refine ⟨?_, ?_⟩
  · rw [hloop.2]
    rfl
  · rw [hloop.1]
    simp only [List.nil_append, List.length_append, List.length_map, List.length_nil]
    omega

/-- The seed loop never changes the search parameters. -/
theorem seedPhase_fields {σ : Type} (eval : σ → ℚ → σ × Hy8ResultRow) :
    ∀ (cands : List ℚ) (search : FlowSearch) (st : σ) (evals : List ℚ),
      (seedPhase eval cands search st evals).1.target_headwater =
          search.target_headwater ∧
      (seedPhase eval cands search st evals).1.tolerance = search.tolerance ∧
      (seedPhase eval cands search st evals).1.max_runs = search.max_runs := by
  intro cands
  induction cands with
  | nil => intro search st evals; exact ⟨rfl, rfl, rfl⟩
  | cons c cs ih =>
    intro search st evals
    rw [seedPhase]
    rcases hx : (search.record c (eval st c).2).exactMatch with _ | smp
    · simp only [hx]
      have := ih (search.record c (eval st c).2) (eval st c).1 (evals ++ [c])
      simpa [FlowSearch.record] using this
    · simp only [hx]
      exact ⟨rfl, rfl, rfl⟩

/-- Each seed evaluation records exactly one sample, and there are at
most as many seed evaluations as candidates. -/
theorem seedPhase_growth {σ : Type} (eval : σ → ℚ → σ × Hy8ResultRow) :
    ∀ (cands : List ℚ) (search : FlowSearch) (st : σ) (evals : List ℚ),
      ((seedPhase eval cands search st evals).1.samples.length + evals.length =
        search.samples.length + (seedPhase eval cands search st evals).2.2.1.length) ∧
      (seedPhase eval cands search st evals).2.2.1.length ≤
        evals.length + cands.length := by
  intro cands
  induction cands with
  | nil => intro search st evals; constructor <;> simp [seedPhase]
  | cons c cs ih =>
    intro search st evals
    rw [seedPhase]
    rcases hx : (search.record c (eval st c).2).exactMatch with _ | smp
    · simp only [hx]
      have h := ih (search.record c (eval st c).2) (eval st c).1 (evals ++ [c])
      have hrl : (search.record c (eval st c).2).samples.length =
          search.samples.length + 1 := by simp [FlowSearch.record]
      constructor
      · have h1 := h.1
        rw [hrl] at h1
        simp only [List.length_append, List.length_cons, List.length_nil] at h1
        omega
      · have h2 := h.2
        simp only [List.length_append, List.length_cons, List.length_nil] at h2 ⊢
        omega
    · simp only [hx]
      constructor
      · simp [FlowSearch.record]
        omega
      · simp only [List.length_append, List.length_cons, List.length_nil]
        omega

/-- The bracketing loop performs at most one evaluation more than the
remaining run budget. -/
theorem searchLoop_evals_le {σ : Type} (eval : σ → ℚ → σ × Hy8ResultRow) :
    ∀ (fuel : ℕ) (search : FlowSearch) (st : σ) (evals : List ℚ),
      search.samples.length ≤ search.max_runs →
      (searchLoop eval fuel search st evals).2.1.length ≤
        evals.length + (search.max_runs - search.samples.length) + 1 := by
  intro fuel
  induction fuel with
  | zero => intro search st evals _; simp only [searchLoop]; omega
  | succ fuel ih =>
    intro search st evals hle
    rw [searchLoop]
    rcases hb : search.bracket with _ | ⟨low, high⟩
    · simp only [hb]
      rcases hg : search.nextGuess with _ | g
      · simp only [hg]
        omega
      · simp only [hg]
        have hlt := nextGuess_some_lt search g hg
        rcases hx : (search.record g (eval st g).2).exactMatch with _ | smp
        · simp only [hx]
          have hrl : (search.record g (eval st g).2).samples.length =
              search.samples.length + 1 := by simp [FlowSearch.record]
          have hmr : (search.record g (eval st g).2).max_runs = search.max_runs := by
            simp [FlowSearch.record]
          have := ih (search.record g (eval st g).2) (eval st g).1 (evals ++ [g])
            (by rw [hrl, hmr]; omega)
          rw [hrl, hmr] at this
          simp only [List.length_append, List.length_cons, List.length_nil] at this ⊢
          omega
        · simp only [hx]
          simp only [List.length_append, List.length_cons, List.length_nil]
          omega
    · simp only [hb]
      by_cases h1 : pyAbs (low.headwater - search.target_headwater) ≤ search.tolerance
      · simp only [h1, if_true]
        omega
      · by_cases h2 : pyAbs (high.headwater - search.target_headwater) ≤ search.tolerance
        · simp only [h1, h2, if_false, if_true]
          omega
        · simp only [h1, h2, if_false]
          simp only [List.length_append, List.length_cons, List.length_nil]
          omega

/-- A result accepted by the seed phase passed the tolerance check. -/
theorem seedPhase_some_tol {σ : Type} (eval : σ → ℚ → σ × Hy8ResultRow) :
    ∀ (cands : List ℚ) (search : FlowSearch) (st : σ) (evals : List ℚ)
      (smp : FlowSample),
      (seedPhase eval cands search st evals).2.2.2 = some smp →
      pyAbs (smp.headwater - search.target_headwater) ≤ search.tolerance := by
  intro cands
  induction cands with
  | nil => intro search st evals smp h; exact absurd h (by simp [seedPhase])
  | cons c cs ih =>
    intro search st evals smp h
    rw [seedPhase] at h
    rcases hx : (search.record c (eval st c).2).exactMatch with _ | smp2
    · rw [hx] at h
      simp only [] at h
      have := ih (search.record c (eval st c).2) (eval st c).1 (evals ++ [c]) smp h
      simpa [FlowSearch.record] using this
    · rw [hx] at h
      simp only [] at h
      have hs2 : smp2 = smp := by simpa using h
      have hfind := List.find?_some hx
      rw [← hs2]
      simpa [FlowSearch.record] using hfind

/-- A loop result produced outside the terminal-interpolation path
passed a tolerance check. -/
theorem searchLoop_ok_false {σ : Type} (eval : σ → ℚ → σ × Hy8ResultRow) :
    ∀ (fuel : ℕ) (search : FlowSearch) (st : σ) (evals : List ℚ)
      (flow : ℚ) (row : Hy8ResultRow),
      (searchLoop eval fuel search st evals).2.2 = .ok (flow, row, false) →
      pyAbs (row.headwater_elevation - search.target_headwater) ≤ search.tolerance := by
  intro fuel
  induction fuel with
  | zero => intro search st evals flow row h; exact absurd h (by simp [searchLoop])
  | succ fuel ih =>
    intro search st evals flow row h
    rw [searchLoop] at h
    rcases hb : search.bracket with _ | ⟨low, high⟩
    · rw [hb] at h
      simp only [] at h
      rcases hg : search.nextGuess with _ | g
      · rw [hg] at h
        simp at h
      · rw [hg] at h
        simp only [] at h
        rcases hx : (search.record g (eval st g).2).exactMatch with _ | smp
        · rw [hx] at h
          simp only [] at h
          have := ih (search.record g (eval st g).2) (eval st g).1 (evals ++ [g])
            flow row h
          simpa [FlowSearch.record] using this
        · rw [hx] at h
          simp only [Except.ok.injEq, Prod.mk.injEq] at h
          have hfind := List.find?_some hx
          rw [← h.2.1]
          simpa [FlowSearch.record, FlowSample.headwater] using hfind
    · rw [hb] at h
      simp only [] at h
      by_cases h1 : pyAbs (low.headwater - search.target_headwater) ≤ search.tolerance
      · rw [if_pos h1] at h
        simp only [Except.ok.injEq, Prod.mk.injEq] at h
        rw [← h.2.1]
        exact h1
      · rw [if_neg h1] at h
        by_cases h2 : pyAbs (high.headwater - search.target_headwater) ≤ search.tolerance
        · rw [if_pos h2] at h
          simp only [Except.ok.injEq, Prod.mk.injEq] at h
          rw [← h.2.1]
          exact h2
        · rw [if_neg h2] at h
          simp only [Except.ok.injEq, Prod.mk.injEq] at h
          exact absurd h.2.2 (by simp)

/-- C3 (amended).  `crossing_q_from_hw` never performs more than 13
evaluations (12 recorded samples plus at most one terminal
interpolation), and every result it returns through a tolerance-checked
path (seed exact match, recorded exact match, or bracket endpoint) has
computed headwater within 1e-4 of the target; only the terminal
interpolation path is returned unchecked. -/
theorem c3_eval_budget (f : ℚ → ℚ) (c : CulvertCrossing) (hw : ℚ)
    (qHint : Option ℚ) :
    (crossingQFromHwFn f c hw qHint).1.length ≤ 13 ∧
    (∀ r, (crossingQFromHwFn f c hw qHint).2 = .ok (r, false) →
      pyAbs (r.computed_headwater - hw) ≤ 1/10000) := by
  unfold crossingQFromHwFn
  rcases hs : simpleFlowEstimate c with e | s
  · simp
  · simp only []
    unfold qFromHwSearch
    set search0 : FlowSearch := { target_headwater := hw, simple_flow := s, q_hint := qHint } with hs0
    simp only []
    have hgrow := seedPhase_growth (pureEval f) search0.initialCandidates search0 () []
    have hfields := seedPhase_fields (pureEval f) search0.initialCandidates search0 () []
    have hcl := initialCandidates_length_le search0
    have hs00 : search0.samples = [] := by rw [hs0]
    have ht0 : search0.target_headwater = hw := by rw [hs0]
    have htol0 : search0.tolerance = 1/10000 := by rw [hs0]
    have hmax0 : search0.max_runs = 12 := by rw [hs0]
    rcases hseed : (seedPhase (pureEval f) search0.initialCandidates search0 () []).2.2.2
      with _ | smp
    · simp only [hseed]
      have hk : (seedPhase (pureEval f) search0.initialCandidates search0 () []).1.samples.length
          = (seedPhase (pureEval f) search0.initialCandidates search0 () []).2.2.1.length := by
        have := hgrow.1
        rw [hs00] at this
        simpa using this
      have hk5 : (seedPhase (pureEval f) search0.initialCandidates search0 () []).2.2.1.length ≤ 5 := by
        have := hgrow.2
        simpa using le_trans this (by simpa using hcl)
      constructor
      · have hloop := searchLoop_evals_le (pureEval f) 16
          (seedPhase (pureEval f) search0.initialCandidates search0 () []).1
          (seedPhase (pureEval f) search0.initialCandidates search0 () []).2.1
          (seedPhase (pureEval f) search0.initialCandidates search0 () []).2.2.1
          (by rw [hfields.2.2, hmax0, hk]; omega)
        rw [hfields.2.2, hmax0, hk] at hloop
        omega
      · intro r hok
        rcases hloop : (searchLoop (pureEval f) 16
            (seedPhase (pureEval f) search0.initialCandidates search0 () []).1
            (seedPhase (pureEval f) search0.initialCandidates search0 () []).2.1
            (seedPhase (pureEval f) search0.initialCandidates search0 () []).2.2.1).2.2
          with e | t
        · rw [hloop] at hok
          simp [Except.map] at hok
        · rw [hloop] at hok
          rcases t with ⟨flow, row, flag⟩
          simp only [Except.map, Except.ok.injEq, Prod.mk.injEq] at hok
          have hflag : flag = false := hok.2
          have hch : r.computed_headwater = row.headwater_elevation := by
            rw [← hok.1]
          rw [hflag] at hloop
          have := searchLoop_ok_false (pureEval f) 16 _ _ _ flow row hloop
          rw [hfields.1, ht0, hfields.2.1, htol0] at this
          rw [hch]
          exact this
    · simp only [hseed]
      constructor
      · have := hgrow.2
        simp only [List.length_nil, Nat.zero_add] at this
        omega
      · intro r hok
        simp only [Except.ok.injEq, Prod.mk.injEq] at hok
        have htolm := seedPhase_some_tol (pureEval f) search0.initialCandidates
          search0 () [] smp hseed
        rw [ht0, htol0] at htolm
        have hch : r.computed_headwater = smp.row.headwater_elevation := by
          rw [← hok.1]
        rw [hch]
        exact htolm

/-- Buffered-card pop shrinks the stream. -/
theorem streamSize_buf_lt (rem : List Str) (b : Card) (bs : List Card) :
    streamSize ⟨rem, bs⟩ < streamSize ⟨rem, b :: bs⟩ := by
  simp only [streamSize, List.length_cons]; omega

/-- Dropping a raw line shrinks the stream. -/
theorem streamSize_tail_lt (raw : Str) (rest : List Str) (buf : List Card) :
    streamSize ⟨rest, buf⟩ < streamSize ⟨raw :: rest, buf⟩ := by
  simp only [streamSize, List.length_cons]; omega

/-- Trading a raw line for a pushed-back card does not grow the stream. -/
theorem streamSize_cons_le (raw : Str) (rest : List Str) (c : Card) (buf : List Card) :
    streamSize ⟨rest, c :: buf⟩ ≤ streamSize ⟨raw :: rest, buf⟩ := by
  simp only [streamSize, List.length_cons]; omega

/-- The raw-line loop of `next_card` yields a card carrying none of the
avoided keys, and a stream still avoiding them. -/
theorem nextCardGo_avoids (ks : List Str) :
    ∀ (rem : List Str),
      (∀ l ∈ rem, strip l ≠ [] → (splitCard (strip l)).key ∉ ks) →
      ∀ c st2, nextCardGo rem = some (c, st2) →
        c.key ∉ ks ∧ streamAvoids ks st2 := by
  intro rem
  induction rem with
  | nil => intro _ c st2 h; exact absurd h (by simp [nextCardGo])
  | cons raw rest ih =>
    intro hrem c st2 h
    rw [nextCardGo] at h
    by_cases hsr : strip raw = []
    · rw [if_pos hsr] at h
      exact ih (fun l hl => hrem l (List.mem_cons_of_mem _ hl)) c st2 h
    · rw [if_neg hsr] at h
      simp only [Option.some.injEq, Prod.mk.injEq] at h
      obtain ⟨rfl, rfl⟩ := h
      refine ⟨hrem raw (List.mem_cons_self _ _) hsr, ?_⟩
      exact ⟨fun l hl => hrem l (List.mem_cons_of_mem _ hl), by simp [streamAvoids]⟩

/-- Popping the next card preserves key avoidance, and the card taken
carries none of the avoided keys. -/
theorem nextCard_avoids (ks : List Str) :
    ∀ (rem : List Str) (buf : List Card), streamAvoids ks ⟨rem, buf⟩ →
      ∀ c st2, nextCard ⟨rem, buf⟩ = some (c, st2) →
        c.key ∉ ks ∧ streamAvoids ks st2 := by
  intro rem buf hst c st2 h
  rcases buf with _ | ⟨b, bs⟩
  · exact nextCardGo_avoids ks rem hst.1 c st2 h
  · simp only [nextCard, Option.some.injEq, Prod.mk.injEq] at h
    obtain ⟨rfl, rfl⟩ := h
    exact ⟨hst.2 _ (List.mem_cons_self _ _),
      ⟨hst.1, fun b2 hb2 => hst.2 b2 (List.mem_cons_of_mem _ hb2)⟩⟩

/-- The raw-line loop of `next_card` consumes at least one line. -/
theorem nextCardGo_size :
    ∀ (rem : List Str) (c : Card) (st2 : CStream),
      nextCardGo rem = some (c, st2) → streamSize st2 < rem.length := by
  intro rem
  induction rem with
  | nil => intro c st2 h; exact absurd h (by simp [nextCardGo])
  | cons raw rest ih =>
    intro c st2 h
    rw [nextCardGo] at h
    by_cases hsr : strip raw = []
    · rw [if_pos hsr] at h
      exact lt_trans (ih c st2 h) (Nat.lt_succ_self _)
    · rw [if_neg hsr] at h
      simp only [Option.some.injEq, Prod.mk.injEq] at h
      obtain ⟨rfl, rfl⟩ := h
      simp only [streamSize, List.length_cons, List.length_nil]
      omega

/-- `next_card` consumes at least one stream element. -/
theorem nextCard_size :
    ∀ (rem : List Str) (buf : List Card) (c : Card) (st2 : CStream),
      nextCard ⟨rem, buf⟩ = some (c, st2) → streamSize st2 < streamSize ⟨rem, buf⟩ := by
  intro rem buf c st2 h
  rcases buf with _ | ⟨b, bs⟩
  · have h1 := nextCardGo_size rem c st2 h
    have h2 : streamSize ⟨rem, ([] : List Card)⟩ = rem.length := by
      simp [streamSize]
    omega
  · simp only [nextCard, Option.some.injEq, Prod.mk.injEq] at h
    obtain ⟨rfl, rfl⟩ := h
    exact streamSize_buf_lt _ _ _

/-- The raw-line loop of `read_block` preserves key avoidance when the
end marker is not an avoided key. -/
theorem readBlockGo_avoids (ks : List Str) (em : Str) (hem : em ∉ ks) :
    ∀ (rem : List Str) (buf : List Card), streamAvoids ks ⟨rem, buf⟩ →
      streamAvoids ks (readBlockGo em buf rem).2 := by
  intro rem
  induction rem with
  | nil => intro buf hst; exact hst
  | cons raw rest ih =>
    intro buf hst
    have hrest : streamAvoids ks ⟨rest, buf⟩ :=
      ⟨fun l hl => hst.1 l (List.mem_cons_of_mem _ hl), hst.2⟩
    rw [readBlockGo]
    by_cases hpref : (upperStr (strip em)).isPrefixOf (upperStr (strip raw)) = true
    · rw [if_pos hpref]
      by_cases htr : strip ((strip raw).drop em.length) ≠ []
      · rw [if_pos htr]
        exact ⟨hrest.1, by
          intro c hc
          rcases List.mem_cons.mp hc with rfl | hc2
          · exact hem
          · exact hrest.2 c hc2⟩
      · rw [if_neg htr]
        exact hrest
    · rw [if_neg hpref]
      exact ih buf hrest

/-- `read_block` preserves key avoidance when its end marker is not an
avoided key. -/
theorem readBlock_avoids (ks : List Str) (em : Str) (hem : em ∉ ks) :
    ∀ (rem : List Str) (buf : List Card), streamAvoids ks ⟨rem, buf⟩ →
      streamAvoids ks (readBlock em ⟨rem, buf⟩).2 :=
  fun rem buf hst => readBlockGo_avoids ks em hem rem buf hst

/-- The raw-line loop of `read_block` does not grow the stream. -/
theorem readBlockGo_size (em : Str) :
    ∀ (rem : List Str) (buf : List Card),
      streamSize (readBlockGo em buf rem).2 ≤ streamSize ⟨rem, buf⟩ := by
  intro rem
  induction rem with
  | nil => intro buf; exact le_rfl
  | cons raw rest ih =>
    intro buf
    rw [readBlockGo]
    by_cases hpref : (upperStr (strip em)).isPrefixOf (upperStr (strip raw)) = true
    · rw [if_pos hpref]
      by_cases htr : strip ((strip raw).drop em.length) ≠ []
      · rw [if_pos htr]
        exact streamSize_cons_le _ _ _ _
      · rw [if_neg htr]
        exact le_of_lt (streamSize_tail_lt _ _ _)
    · rw [if_neg hpref]
      exact le_trans (ih buf) (le_of_lt (streamSize_tail_lt _ _ _))

/-- `read_block` does not grow the stream. -/
theorem readBlock_size (em : Str) :
    ∀ (rem : List Str) (buf : List Card),
      streamSize (readBlock em ⟨rem, buf⟩).2 ≤ streamSize ⟨rem, buf⟩ :=
  fun rem buf => readBlockGo_size em rem buf

/-- The raw-line loop of `skip_until` preserves key avoidance. -/
theorem skipUntilGo_avoids (ks : List Str) (tgt : Str) :
    ∀ (rem : List Str) (buf : List Card), streamAvoids ks ⟨rem, buf⟩ →
      streamAvoids ks (skipUntilGo tgt buf rem) := by
  intro rem
  induction rem with
  | nil => intro buf hst; exact hst
  | cons raw rest ih =>
    intro buf hst
    have hrest : streamAvoids ks ⟨rest, buf⟩ :=
      ⟨fun l hl => hst.1 l (List.mem_cons_of_mem _ hl), hst.2⟩
    rw [skipUntilGo]
    split_ifs
    · exact hrest
    · exact ih buf hrest

/-- `skip_until` preserves key avoidance. -/
theorem skipUntil_avoids (ks : List Str) (tgt : Str) :
    ∀ (rem : List Str) (buf : List Card), streamAvoids ks ⟨rem, buf⟩ →
      streamAvoids ks (skipUntil tgt ⟨rem, buf⟩) :=
  fun rem buf hst => skipUntilGo_avoids ks tgt rem buf hst

/-- The raw-line loop of `skip_until` does not grow the stream. -/
theorem skipUntilGo_size (tgt : Str) :
    ∀ (rem : List Str) (buf : List Card),
      streamSize (skipUntilGo tgt buf rem) ≤ streamSize ⟨rem, buf⟩ := by
  intro rem
  induction rem with
  | nil => intro buf; exact le_rfl
  | cons raw rest ih =>
    intro buf
    rw [skipUntilGo]
    split_ifs
    · exact le_of_lt (streamSize_tail_lt _ _ _)
    · exact le_trans (ih buf) (le_of_lt (streamSize_tail_lt _ _ _))

/-- `skip_until` does not grow the stream. -/
theorem skipUntil_size (tgt : Str) :
    ∀ (rem : List Str) (buf : List Card),
      streamSize (skipUntil tgt ⟨rem, buf⟩) ≤ streamSize ⟨rem, buf⟩ :=
  fun rem buf => skipUntilGo_size tgt rem buf


/-- With fuel exceeding the stream size, `_parse_culvert` either raises
(never by running out of fuel, i.e. the Python loop terminates) or
returns having consumed at least one element, with key avoidance intact
(its only push-back carries the `ENDCULVNOTES` key). -/
theorem parseCulvert_preserves (ks : List Str) (hem : S "ENDCULVNOTES" ∉ ks) :
    ∀ (fuel : ℕ) (cul : CulvertBarrel) (st : CStream), streamAvoids ks st →
      streamSize st < fuel →
      (∃ e, parseCulvert fuel cul st = .error e ∧ e ≠ .noFuel) ∨
      (∃ c2 st2, parseCulvert fuel cul st = .ok (c2, st2) ∧ streamAvoids ks st2 ∧
        streamSize st2 < streamSize st) := by
  intro fuel
  induction fuel with
  | zero => intro cul st _ hsz; exact absurd hsz (by omega)
  | succ fuel ih =>
    intro cul st hst hsz
    rw [parseCulvert]
    split
    · exact Or.inl ⟨.stopIteration, rfl, fun h => PErr.noConfusion h⟩
    · rename_i card st2 hnc
      have hpres := nextCard_avoids ks st.rem st.buf hst card st2 hnc
      have hszlt : streamSize st2 < streamSize st := nextCard_size st.rem st.buf card st2 hnc
      have hsz2 : streamSize st2 < fuel := by omega
      have step : ∀ (cu : CulvertBarrel) (su : CStream), streamAvoids ks su →
          streamSize su ≤ streamSize st2 →
          (∃ e, parseCulvert fuel cu su = .error e ∧ e ≠ .noFuel) ∨
          (∃ c2 st3, parseCulvert fuel cu su = .ok (c2, st3) ∧ streamAvoids ks st3 ∧
            streamSize st3 < streamSize st) := by
        intro cu su hau hle
        rcases ih cu su hau (lt_of_le_of_lt hle hsz2) with he | ⟨c2, st3, hok, hav3, hlt⟩
        · exact Or.inl he
        · exact Or.inr ⟨c2, st3, hok, hav3, lt_of_lt_of_le (lt_of_lt_of_le hlt hle) hszlt.le⟩
      by_cases h1 : card.key = S "ENDCULVERT"
      · rw [if_pos h1]; exact Or.inr ⟨cul, st2, rfl, hpres.2, hszlt⟩
      rw [if_neg h1]
      by_cases h2 : card.key = S "CULVERTSHAPE"
      · rw [if_pos h2]; exact step _ _ hpres.2 le_rfl
      rw [if_neg h2]
      by_cases h3 : card.key = S "CULVERTMATERIAL"
      · rw [if_pos h3]; exact step _ _ hpres.2 le_rfl
      rw [if_neg h3]
      by_cases h4 : card.key = S "INLETTYPE"
      · rw [if_pos h4]; exact step _ _ hpres.2 le_rfl
      rw [if_neg h4]
      by_cases h5 : card.key = S "INLETEDGETYPE"
      · rw [if_pos h5]; exact step _ _ hpres.2 le_rfl
      rw [if_neg h5]
      by_cases h6 : card.key = S "INLETEDGETYPE71"
      · rw [if_pos h6]; exact step _ _ hpres.2 le_rfl
      rw [if_neg h6]
      by_cases h7 : card.key = S "IMPINLETEDGETYPE"
      · rw [if_pos h7]; exact step _ _ hpres.2 le_rfl
      rw [if_neg h7]
      by_cases h8 : card.key = S "BARRELDATA"
      · rw [if_pos h8]
        rcases floatsOf card.value (some 4) with
          _ | ⟨a, _ | ⟨b, _ | ⟨c, _ | ⟨d, _ | ⟨e, tl⟩⟩⟩⟩⟩ <;>
          exact step _ _ hpres.2 le_rfl
      rw [if_neg h8]
      by_cases h9 : card.key = S "NUMBEROFBARRELS"
      · rw [if_pos h9]; exact step _ _ hpres.2 le_rfl
      rw [if_neg h9]
      by_cases h10 : card.key = S "INVERTDATA"
      · rw [if_pos h10]
        rcases floatsOf card.value (some 4) with
          _ | ⟨a, _ | ⟨b, _ | ⟨c, _ | ⟨d, _ | ⟨e, tl⟩⟩⟩⟩⟩ <;>
          exact step _ _ hpres.2 le_rfl
      rw [if_neg h10]
      by_cases h11 : card.key = S "ROADCULVSTATION"
      · rw [if_pos h11]; exact step _ _ hpres.2 le_rfl
      rw [if_neg h11]
      by_cases h12 : card.key = S "BARRELSPACING"
      · rw [if_pos h12]; exact step _ _ hpres.2 le_rfl
      rw [if_neg h12]
      by_cases h13 : card.key = S "STARTCULVNOTES"
      · rw [if_pos h13]
        exact step _ _ (readBlock_avoids ks (S "ENDCULVNOTES") hem st2.rem st2.buf hpres.2)
          (readBlock_size (S "ENDCULVNOTES") st2.rem st2.buf)
      rw [if_neg h13]
      exact step _ _ hpres.2 le_rfl

/-- On a card stream in which neither `ENDCROSSING` nor `DISCHARGEXYUSER`
ever appears (as a stripped-line key or a pushed-back card), and with
fuel exceeding the stream size, `_parse_crossing` always raises — and
not by running out of fuel: the unterminated block is a genuine error,
not divergence. -/
theorem parseCrossing_fails :
    ∀ (fuel : ℕ) (crossing : CulvertCrossing) (pending : List ℚ × List Str)
      (st : CStream), streamAvoids [S "ENDCROSSING", S "DISCHARGEXYUSER"] st →
      streamSize st < fuel →
      ∃ e, parseCrossing fuel crossing pending st = .error e ∧ e ≠ .noFuel := by
  intro fuel
  induction fuel with
  | zero => intro crossing pending st _ hsz; exact absurd hsz (by omega)
  | succ fuel ih =>
    intro crossing pending st hst hsz
    rw [parseCrossing]
    split
    · exact ⟨.stopIteration, rfl, fun h => PErr.noConfusion h⟩
    · rename_i card st2 hnc
      have hpres := nextCard_avoids [S "ENDCROSSING", S "DISCHARGEXYUSER"]
        st.rem st.buf hst card st2 hnc
      have hszlt : streamSize st2 < streamSize st := nextCard_size st.rem st.buf card st2 hnc
      have hsz2 : streamSize st2 < fuel := by omega
      have hne1 : ¬ card.key = S "ENDCROSSING" :=
        fun h => hpres.1 (h ▸ List.mem_cons_self _ _)
      have hne5 : ¬ card.key = S "DISCHARGEXYUSER" :=
        fun h => hpres.1 (h ▸ List.mem_cons_of_mem _ (List.mem_cons_self _ _))
      rw [if_neg hne1]
      by_cases h2 : card.key = S "STARTCROSSNOTES"
      · rw [if_pos h2]; exact ih _ _ _ hpres.2 hsz2
      rw [if_neg h2]
      by_cases h3 : card.key = S "DISCHARGERANGE"
      · rw [if_pos h3]; exact ih _ _ _ hpres.2 hsz2
      rw [if_neg h3]
      by_cases h4 : card.key = S "DISCHARGEMETHOD"
      · rw [if_pos h4]
        by_cases hm0 : asInt card.value 0 = 0
        · rw [if_pos hm0]; exact ih _ _ _ hpres.2 hsz2
        rw [if_neg hm0]
        by_cases hm1 : asInt card.value 0 = 1
        · rw [if_pos hm1]; exact ih _ _ _ hpres.2 hsz2
        rw [if_neg hm1]
        exact ⟨.badFlowFlag (asInt card.value 0), rfl, fun h => PErr.noConfusion h⟩
      rw [if_neg h4]
      rw [if_neg hne5]
      by_cases h6 : card.key = S "DISCHARGEXYUSER_NAME"
      · rw [if_pos h6]; exact ih _ _ _ hpres.2 hsz2
      rw [if_neg h6]
      by_cases h7 : card.key = S "TAILWATERTYPE"
      · rw [if_pos h7]; exact ih _ _ _ hpres.2 hsz2
      rw [if_neg h7]
      by_cases h8 : card.key = S "NUMRATINGCURVE"
      · rw [if_pos h8]; exact ih _ _ _ hpres.2 hsz2
      rw [if_neg h8]
      by_cases h9 : card.key = S "CHANNELGEOMETRY"
      · rw [if_pos h9]; exact ih _ _ _ hpres.2 hsz2
      rw [if_neg h9]
      by_cases h10 : card.key = S "TWRATINGCURVE"
      · rw [if_pos h10]; exact ih _ _ _ hpres.2 hsz2
      rw [if_neg h10]
      by_cases h11 : card.key = S "RATINGCURVE"
      · rw [if_pos h11]
        exact ih _ _ _
          (skipUntil_avoids _ (S "END RATINGCURVE") st2.rem st2.buf hpres.2)
          (lt_of_le_of_lt (skipUntil_size (S "END RATINGCURVE") st2.rem st2.buf) hsz2)
      rw [if_neg h11]
      by_cases h12 : card.key = S "ROADWAYSHAPE"
      · rw [if_pos h12]; exact ih _ _ _ hpres.2 hsz2
      rw [if_neg h12]
      by_cases h13 : card.key = S "ROADWIDTH"
      · rw [if_pos h13]; exact ih _ _ _ hpres.2 hsz2
      rw [if_neg h13]
      by_cases h14 : card.key = S "SURFACE"
      · rw [if_pos h14]; exact ih _ _ _ hpres.2 hsz2
      rw [if_neg h14]
      by_cases h15 : card.key = S "ROADWAYSECDATA" ∨ card.key = S "ROADWAYPOINT"
      · rw [if_pos h15]; exact ih _ _ _ hpres.2 hsz2
      rw [if_neg h15]
      by_cases h16 : card.key = S "STARTCULVERT"
      · rw [if_pos h16]
        rcases parseCulvert_preserves [S "ENDCROSSING", S "DISCHARGEXYUSER"]
            (by decide) fuel { name := cleanString card.value } st2 hpres.2 hsz2 with
          ⟨e, he, hnf⟩ | ⟨c2, st3, hok, hav, hlt⟩
        · exact ⟨e, by rw [he]; rfl, hnf⟩
        · rw [hok]; exact ih _ _ _ hav (lt_trans hlt hsz2)
      rw [if_neg h16]
      by_cases h17 : card.key = S "NUMCULVERTS"
      · rw [if_pos h17]; exact ih _ _ _ hpres.2 hsz2
      rw [if_neg h17]
      by_cases h18 : card.key = S "CROSSGUID"
      · rw [if_pos h18]; exact ih _ _ _ hpres.2 hsz2
      rw [if_neg h18]
      exact ih _ _ _ hpres.2 hsz2


/-- The `_read_flow_values` loop state reached after pushing a foreign
`FOO` card back while two values are still expected: `next_card` pops
that same card again, pushes it back again, and so on — every fuel is
exhausted, i.e. the Python loop never terminates. -/
theorem readFlowStuck :
    ∀ fuel : ℕ, readFlowValuesLoop fuel 2 [] [] false false
      ⟨[], [⟨S "FOO", []⟩]⟩ = .error .noFuel := by
  intro fuel
  induction fuel with
  | zero => rfl
  | succ n ih => exact ih

/-- C8, divergence evidence: an unterminated `STARTCROSSING` block whose
`DISCHARGEXYUSER` card promises more values than the stream provides
makes the reader loop forever (re-reading its own pushed-back card)
instead of raising: the loop exhausts every fuel, and `decode` on such a
file can only report fuel exhaustion, never the promised format error. -/
theorem c8_reader_divergence :
    (∀ fuel : ℕ, readFlowValuesLoop fuel 2 [] [] false false
      ⟨[S "FOO"], []⟩ = .error .noFuel) ∧
    decode (S "HY8PROJECTFILE\nSTARTCROSSING\nDISCHARGEXYUSER 2\nFOO") =
      .error .noFuel := by
  constructor
  · intro fuel
    cases fuel with
    | zero => rfl
    | succ n => exact readFlowStuck n
  · rfl

/-- C8: `decode` fails on a missing or mismatched `HY8PROJECTFILE`
header card (with the exact empty-file / bad-header errors), and an
unterminated `STARTCROSSING` block — one whose remaining lines never
carry an `ENDCROSSING` card (nor a `DISCHARGEXYUSER` card, whose handler
can loop forever instead) — always produces a genuine error, never mere
fuel exhaustion. -/
theorem c8_decode_errors :
    (∀ text : Str, nextCard ⟨pySplitlines text, []⟩ = none →
      decode text = .error .emptyFile) ∧
    (∀ (text : Str) (card : Card) (st2 : CStream),
      nextCard ⟨pySplitlines text, []⟩ = some (card, st2) →
      card.key ≠ S "HY8PROJECTFILE" →
      decode text = .error (.badHeader card.key)) ∧
    (∀ (text l0 l1 : Str) (rest : List Str),
      pySplitlines text = l0 :: l1 :: rest →
      strip l0 ≠ [] → (splitCard (strip l0)).key = S "HY8PROJECTFILE" →
      strip l1 ≠ [] → (splitCard (strip l1)).key = S "STARTCROSSING" →
      (∀ l ∈ rest, strip l ≠ [] →
        (splitCard (strip l)).key ∉ [S "ENDCROSSING", S "DISCHARGEXYUSER"]) →
      ∃ e, decode text = .error e ∧ e ≠ .noFuel) := by
  refine ⟨?_, ?_, ?_⟩
  · intro text h
    have hch : consumeHeader ⟨pySplitlines text, []⟩ = .error .emptyFile := by
      rw [consumeHeader, h]
    show parseProject (stdFuel (pySplitlines text)) ⟨pySplitlines text, []⟩ =
      .error .emptyFile
    rw [parseProject, hch]
    rfl
  · intro text card st2 h hne
    have hch : consumeHeader ⟨pySplitlines text, []⟩ =
        .error (.badHeader card.key) := by
      rw [consumeHeader, h]
      show (if card.key ≠ S "HY8PROJECTFILE"
          then (Except.error (PErr.badHeader card.key) : Except PErr CStream)
          else .ok st2) = _
      rw [if_pos hne]
    show parseProject (stdFuel (pySplitlines text)) ⟨pySplitlines text, []⟩ =
      .error (.badHeader card.key)
    rw [parseProject, hch]
    rfl
  · intro text l0 l1 rest hsplit h0ne h0key h1ne h1key havoid
    have hnc0 : nextCard ⟨l0 :: l1 :: rest, []⟩ =
        some (splitCard (strip l0), ⟨l1 :: rest, []⟩) := by
      rw [nextCard, nextCardGo, if_neg h0ne]
    have hnc1 : nextCard ⟨l1 :: rest, []⟩ =
        some (splitCard (strip l1), ⟨rest, []⟩) := by
      rw [nextCard, nextCardGo, if_neg h1ne]
    have hch : consumeHeader ⟨l0 :: l1 :: rest, []⟩ = .ok ⟨l1 :: rest, []⟩ := by
      rw [consumeHeader, hnc0]
      show (if (splitCard (strip l0)).key ≠ S "HY8PROJECTFILE"
          then (Except.error (PErr.badHeader (splitCard (strip l0)).key) :
            Except PErr CStream)
          else .ok ⟨l1 :: rest, []⟩) = _
      rw [if_neg (fun hk => hk h0key)]
    have hm : stdFuel (l0 :: l1 :: rest) = 4 * rest.length + 23 + 1 := by
      simp only [stdFuel, List.length_cons]; omega
    have hend : ¬ (splitCard (strip l1)).key = S "ENDPROJECTFILE" :=
      fun hk => absurd (h1key.symm.trans hk) (by decide)
    obtain ⟨e, he, hnf⟩ := parseCrossing_fails (4 * rest.length + 23)
      { name := if cleanString (splitCard (strip l1)).value ≠ []
          then cleanString (splitCard (strip l1)).value else S "Crossing" }
      ([], []) ⟨rest, []⟩
      ⟨fun l hl hs => havoid l hl hs, fun c hc => absurd hc (List.not_mem_nil c)⟩
      (by show rest.length + 0 < 4 * rest.length + 23; omega)
    have hpl : parseLoop (stdFuel (l0 :: l1 :: rest)) {} ⟨l1 :: rest, []⟩ =
        .error e := by
      rw [hm, parseLoop]
      simp only [hnc1]
      rw [if_neg hend, if_pos h1key, he]
      rfl
    have hpp : parseProject (stdFuel (l0 :: l1 :: rest)) ⟨l0 :: l1 :: rest, []⟩ =
        Except.bind (parseLoop (stdFuel (l0 :: l1 :: rest)) {} ⟨l1 :: rest, []⟩)
          (fun p => Except.ok { p with units := UnitSystem.SI }) := by
      rw [parseProject, hch]
      rfl
    refine ⟨e, ?_, hnf⟩
    show parseProject (stdFuel (pySplitlines text)) ⟨pySplitlines text, []⟩ =
      .error e
    rw [hsplit, hpp, hpl]
    rfl

/-- C8 witness: the empty file, a file whose first card is `FOO 1`, and
an unterminated crossing block, each at a concrete input. -/
theorem c8_decode_errors_witness :
    decode (S "") = .error .emptyFile ∧
    decode (S "FOO 1") = .error (.badHeader (S "FOO")) ∧
    (∃ e, decode (S "HY8PROJECTFILE\nSTARTCROSSING\nFOO") = .error e ∧
      e ≠ .noFuel) :=
  ⟨c8_decode_errors.1 (S "") rfl,
   c8_decode_errors.2.1 (S "FOO 1") ⟨S "FOO", S "1"⟩ ⟨[], []⟩ rfl (by decide),
   c8_decode_errors.2.2 (S "HY8PROJECTFILE\nSTARTCROSSING\nFOO")
     (S "HY8PROJECTFILE") (S "STARTCROSSING") [S "FOO"] rfl (by decide) rfl
     (by decide) rfl (by decide)⟩

section

attribute [local semireducible] Rat.add Rat.mul Rat.sub Rat.inv

/-- C2 counterexample: with the zero solver (every achievable headwater
is `0`, the target `100` unreachable) on a one-barrel crossing,
`crossing_q_from_hw` consumes its entire 12-evaluation budget and then
fails with the unable-to-bracket error: no capacity-exceeded report cuts
the search short (no such error exists in the code). -/
theorem c2_capacity_counterexample :
    (∀ q : ℚ, (fun _ : ℚ => (0 : ℚ)) q < 100) ∧
    (crossingQFromHwFn (fun _ : ℚ => 0) searchCrossing2 100 none).1.length = 12 ∧
    (crossingQFromHwFn (fun _ : ℚ => 0) searchCrossing2 100 none).2 =
      .error .unableToBracket := by
  refine ⟨fun q => by norm_num, by decide⟩

/-- C2 witness: the amended budget-exhaustion statement at the zero
solver, the two-unit circular crossing and target headwater 100. -/
theorem c2_budget_exhaustion_witness :
    (crossingQFromHwFn (fun _ : ℚ => 0) searchCrossing2 100 none).2 =
      .error .unableToBracket ∧
    (crossingQFromHwFn (fun _ : ℚ => 0) searchCrossing2 100 none).1.length = 12 :=
  c2_budget_exhaustion (fun _ => 0) searchCrossing2 100 none mathPi (by decide)
    (fun q => by norm_num)

/-- C3 counterexample: `fSteep` is strictly monotone and the target 60
lies strictly between achievable headwaters, yet the search (within its
12-evaluation budget) returns through the terminal interpolation a
result whose computed headwater misses the target by far more than the
1e-4 tolerance: the convergence clause of the claim is false. -/
theorem c3_tolerance_counterexample :
    StrictMono fSteep ∧ fSteep 0 < 60 ∧ (60 : ℚ) < fSteep 20 ∧
    (crossingQFromHwFn fSteep searchCrossing1 60 (some 8)).1.length ≤ 12 ∧
    (∃ r flag,
      (crossingQFromHwFn fSteep searchCrossing1 60 (some 8)).2 = .ok (r, flag) ∧
      1/10000 < pyAbs (r.computed_headwater - 60)) := by
  refine ⟨?_, by decide, by decide, by decide, ?_⟩
  · intro a b hab
    simp only [fSteep]
    split_ifs with h1 h2 h2 <;> linarith
  · exact ⟨⟨S "X", none, some 60, 8124/865, 8124/865, ⟨8124/865, 8124/865⟩⟩, true,
      by decide, by decide⟩

set_option maxRecDepth 8000 in
/-- C1 counterexample: a validation-clean ENGLISH-units project encodes
successfully, but the decoded project's units field is SI — the reader
force-sets SI and converts all lengths — so decode after encode is not
field-equality (not even on the units field) for valid projects in
general. -/
theorem c1_roundtrip_counterexample :
    Hy8Project.validate enProject = [] ∧
    enProject.units = .ENGLISH ∧
    (encode enProject 0).map (fun t => decodedUnits (decode t)) = .ok .SI := by
  refine ⟨by decide, by decide, by decide⟩

end
